import Mathlib

/-!
Verification of the mock-restaurant-recommender repository.

The development shallowly embeds the recommendation scoring and
candidate-assembly engine of the repository:

* the restaurant scorer and recommender (`src/recommender.ts` of the
  standalone restaurant app, file `calculateMatchScore` / `getRecommendations`),
* the TV-show content scorer and multi-phase orchestrator
  (`src/tvshows/recommender.ts`),
* the catalog upsert functions (`src/db/tvShowDb.ts` `saveTvShow`,
  `src/db/restaurantDb.ts` `saveRestaurantToDb`),
* the external restaurant provider fetch (`src/googleApiService.ts`
  `fetchRestaurantsFromGooglePlaces`).

Numbers are embedded as `ℚ` (JS numbers; no overflow or float rounding is
relevant at the magnitudes involved), JS arrays as `List`, JS `Set` as
`Finset ℕ`, and `undefined`/`null` as `Option`.  `Math.random()` is made an
explicit parameter.  Asynchronous external collaborators (database, TMDB,
Google Places) are modelled as oracle functions supplied in an environment
structure; the sequential single-threaded execution of the source makes
this faithful.
-/

/-! ## JS string/array helpers -/

/-- Bool-valued infix test on char lists (computable, structural). -/
def listIsInfixOf (sub : List Char) : List Char → Bool
  | [] => sub.isEmpty
  | c :: t => sub.isPrefixOf (c :: t) || listIsInfixOf sub t

/-- JS `String.prototype.includes` (substring containment) on chars. -/
def strIncludes (s sub : String) : Bool :=
  listIsInfixOf sub.data s.data

/-- JS `String.prototype.toLowerCase` (ASCII-level, as used by the repo). -/
def strLower (s : String) : String :=
  String.mk (s.data.map Char.toLower)

/-! ## Restaurant domain: data model (`src/types.ts` of the restaurant app) -/

/-- `Restaurant` record. `id` is the local DB id; optional because the
recommender guards on `r.id !== undefined`. `rating` is a JS number. -/
structure Restaurant where
  id : Option ℕ
  googlePlaceId : String
  name : String
  address : String
  cuisines : List String
  dietaryOptions : List String
  rating : ℚ
deriving Repr, DecidableEq

/-- `UserPreferences` of the restaurant app. -/
structure UserPreferences where
  favoriteCuisines : List String
  dietaryRestrictions : List String
  minRating : ℚ
deriving Repr, DecidableEq

/-- `User` of the restaurant app: `{ id, name, preferences }`. -/
structure RestUser where
  id : ℕ
  name : String
  preferences : UserPreferences
deriving Repr, DecidableEq

/-! ## Restaurant scorer (`src/recommender.ts`) -/

def CUISINE_MATCH_SCORE : ℚ := 30

def DIETARY_MATCH_SCORE : ℚ := 50

def RATING_BONUS_PER_POINT : ℚ := 5

/-- Helper `arrayIntersects`: some element of `arr1` is in `arr2`. -/
def arrayIntersects (arr1 arr2 : List String) : Bool :=
  arr1.any fun item => arr2.contains item

/-- The dietary check of `calculateMatchScore`: every user restriction is
met by some restaurant option, by case-insensitive substring match. -/
def meetsAllRestrictions (restaurant : Restaurant) (userRestrictions : List String) : Bool :=
  userRestrictions.all fun restriction =>
    restaurant.dietaryOptions.any fun opt =>
      strIncludes (strLower opt) (strLower restriction)

/-- Block 1 of `calculateMatchScore` (Cuisine Match): half-weight bonus
when the user declared "Any" or no cuisines, full weight on overlap,
nothing otherwise. -/
def cuisineMatchScore (restaurant : Restaurant) (preferences : UserPreferences) : ℚ :=
  let userCuisines := preferences.favoriteCuisines
  if userCuisines.contains "Any" || userCuisines.isEmpty then
    CUISINE_MATCH_SCORE / 2
  else if arrayIntersects restaurant.cuisines userCuisines then
    CUISINE_MATCH_SCORE
  else 0

/-- The dietary contribution when the dietary hard filter did not reject:
full weight with stated restrictions, a fifth of it with none. -/
def dietaryScore (preferences : UserPreferences) : ℚ :=
  if 0 < preferences.dietaryRestrictions.length then DIETARY_MATCH_SCORE
  else DIETARY_MATCH_SCORE / 5

/-- `calculateMatchScore(restaurant, preferences)` with the single
`Math.random()` draw made an explicit argument `rand` (the source adds
`Math.random() * 5` at the end of the non-rejecting paths; the two early
`return 0` statements happen before the draw). -/
def calculateMatchScore (restaurant : Restaurant) (preferences : UserPreferences)
    (rand : ℚ) : ℚ :=
  -- 1. Cuisine Match
  let cuisineScore := cuisineMatchScore restaurant preferences
  -- 2. Dietary Restrictions Match (hard filter: early return 0 on failure)
  let userRestrictions := preferences.dietaryRestrictions
  if 0 < userRestrictions.length ∧ meetsAllRestrictions restaurant userRestrictions = false then
    0
  else
    let score := cuisineScore + dietaryScore preferences
    -- 3. Rating Match
    if preferences.minRating ≤ restaurant.rating then
      score + (restaurant.rating - preferences.minRating) * RATING_BONUS_PER_POINT
        + 10 + rand * 5
    else if score < (CUISINE_MATCH_SCORE + DIETARY_MATCH_SCORE) / 2 then
      0
    else
      score + rand * 5

/-! ## Stable descending sort by score

JS `Array.prototype.sort((a, b) => b.score - a.score)` is a stable sort;
we embed it as stable insertion sort on score-labelled pairs. -/

def insertDesc {α : Type} (x : α × ℚ) : List (α × ℚ) → List (α × ℚ)
  | [] => [x]
  | y :: ys => if y.2 ≤ x.2 then x :: y :: ys else y :: insertDesc x ys

def sortByScoreDesc {α : Type} : List (α × ℚ) → List (α × ℚ)
  | [] => []
  | x :: xs => insertDesc x (sortByScoreDesc xs)

/-! ## Restaurant recommender (`getRecommendations` of `src/recommender.ts`)

The source draws one `Math.random()` per scored restaurant, in list order;
`rand i` is the draw used for the `i`-th eligible restaurant. The function
is pure apart from these draws; in particular it never mutates
`excludeIds`. -/

def getRecommendations (user : RestUser) (allRestaurants : List Restaurant)
    (excludeIds : Finset ℕ) (rand : ℕ → ℚ) : List Restaurant :=
  let eligible := allRestaurants.filter fun r =>
    match r.id with
    | none => false
    | some i => decide (i ∉ excludeIds)
  let scoredRestaurants :=
    (eligible.enum.map fun p =>
      (p.2, calculateMatchScore p.2 user.preferences (rand p.1))).filter
      fun item => decide (0 < item.2)
  (sortByScoreDesc scoredRestaurants).map fun item => item.1

/-! ## TV-show domain: data model (`src/tvshows/types.ts`, `src/common/types.ts`) -/

structure Genre where
  id : ℤ
  name : String
deriving Repr, DecidableEq

/-- `TvShow` record (local catalog entity). `first_air_date` is the raw
`YYYY-MM-DD` string (`none` = absent / SQL NULL; JS also treats the empty
string as falsy, which the embedding reproduces). `episode_run_time` is
TMDB's array, `none` when NULL. -/
structure TvShow where
  id : ℕ
  tmdb_id : ℕ
  name : String
  overview : String
  first_air_date : Option String
  vote_average : ℚ
  vote_count : ℕ
  genres : List Genre
  number_of_seasons : Option ℕ
  episode_run_time : Option (List ℚ)
  original_language : Option String
deriving Repr, DecidableEq

/-- `UserTvShowPreferences`: all constraint fields optional
(`undefined`/NULL ⇒ `none`). -/
structure UserTvShowPreferences where
  user_id : ℕ
  preferred_genres : Option (List String)
  preferred_languages : Option (List String)
  first_air_year_min : Option ℤ
  first_air_year_max : Option ℤ
  avg_episode_duration_min : Option ℚ
  avg_episode_duration_max : Option ℚ
  min_imdb_rating : Option ℚ
  preferred_streaming_providers : Option (List String)
deriving Repr, DecidableEq

/-- Common `User` record. -/
structure User where
  id : ℕ
  name : String
deriving Repr, DecidableEq

/-- A row of `getUserTvShowRatings`: the rating joined with the show's
TMDB id. -/
structure TvRating where
  user_id : ℕ
  tv_show_id : ℕ
  rating : ℚ
  tv_show_tmdb_id : ℕ
deriving Repr, DecidableEq

/-! ## TV-show content scorer (`getContentBasedTvShowRecommendations`) -/

/-- JS truthiness of an optional number (`undefined` and `0` are falsy). -/
def numTruthy (o : Option ℤ) : Bool :=
  match o with
  | none => false
  | some x => decide (x ≠ 0)

/-- JS truthiness of an optional string (`undefined` and `""` are falsy). -/
def strTruthy (o : Option String) : Bool :=
  match o with
  | none => false
  | some s => decide (s ≠ "")

/-- JS truthiness of an optional string list: the list must be present and
non-empty (`preferences.xs && preferences.xs.length > 0`). -/
def listTruthy (o : Option (List String)) : Bool :=
  match o with
  | none => false
  | some l => decide (0 < l.length)

/-- `parseInt` on a digit-prefixed string: `none` models `NaN`. Dates in
the repo are `YYYY-MM-DD`, so the sign/whitespace handling of full
`parseInt` is irrelevant and not modelled. -/
def jsParseInt (s : String) : Option ℕ :=
  let ds := s.data.takeWhile Char.isDigit
  if ds.isEmpty then none
  else some (ds.foldl (fun n c => 10 * n + (c.toNat - 48)) 0)

/-- Block 1 of the TV scorer (Genre Match): score contribution and
hard-filter failure flag. Zero overlap with a stated genre preference is a
hard-filter failure; no stated preference yields a flat `+2`. -/
def tvGenreEval (tvShow : TvShow) (preferences : UserTvShowPreferences) : ℚ × Bool :=
  if listTruthy preferences.preferred_genres then
    let gs := preferences.preferred_genres.getD []
    let showGenresLower := tvShow.genres.map fun g => strLower g.name
    let preferredGenresLower := gs.map strLower
    let genreMatchCount := preferredGenresLower.countP fun pg => showGenresLower.contains pg
    if genreMatchCount = 0 then (0, true) else ((genreMatchCount : ℚ) * 5, false)
  else
    (2, false)

/-- Block 2 (Language Match): a stated language preference requires the
tvShow's original language (lower-cased) to be a member of the preferred
list; a missing/empty language fails the filter. -/
def tvLanguageEval (tvShow : TvShow) (preferences : UserTvShowPreferences) : ℚ × Bool :=
  if listTruthy preferences.preferred_languages then
    let ls := preferences.preferred_languages.getD []
    if !strTruthy tvShow.original_language
        || !ls.contains (strLower (tvShow.original_language.getD "")) then
      (0, true)
    else
      (10, false)
  else
    (0, false)

/-- Block 3 (First Air Year): returns `true` when the year hard filter
fails. Year bounds use JS truthiness (a `0` bound is ignored); a missing
date with a stated bound fails; a date whose first four chars do not
parse (`parseInt` = `NaN`) passes both comparisons. -/
def tvYearFail (tvShow : TvShow) (preferences : UserTvShowPreferences) : Bool :=
  if strTruthy tvShow.first_air_date then
    match jsParseInt ((tvShow.first_air_date.getD "").take 4) with
    | some showYear =>
        (numTruthy preferences.first_air_year_min
          && decide ((showYear : ℤ) < preferences.first_air_year_min.getD 0))
        || (numTruthy preferences.first_air_year_max
          && decide ((showYear : ℤ) > preferences.first_air_year_max.getD 0))
    | none => false
  else
    numTruthy preferences.first_air_year_min || numTruthy preferences.first_air_year_max

/-- `tvShow.episode_run_time && tvShow.episode_run_time.length > 0 ?
tvShow.episode_run_time[0] : null`. -/
def tvAvgEpisodeRunTime (tvShow : TvShow) : Option ℚ :=
  match tvShow.episode_run_time with
  | some (x :: _) => some x
  | _ => none

/-- Block 4 (Avg Episode Duration): `true` when the duration hard filter
fails. Duration bounds use explicit `!= null` checks (a `0` bound counts). -/
def tvDurationFail (tvShow : TvShow) (preferences : UserTvShowPreferences) : Bool :=
  match tvAvgEpisodeRunTime tvShow with
  | some rt =>
      (preferences.avg_episode_duration_min.isSome
        && decide (rt < preferences.avg_episode_duration_min.getD 0))
      || (preferences.avg_episode_duration_max.isSome
        && decide (rt > preferences.avg_episode_duration_max.getD 0))
  | none =>
      preferences.avg_episode_duration_min.isSome
      || preferences.avg_episode_duration_max.isSome

/-- Block 5 (TMDB Vote Average): `true` when the minimum-rating hard
filter fails. -/
def tvRatingFail (tvShow : TvShow) (preferences : UserTvShowPreferences) : Bool :=
  preferences.min_imdb_rating.isSome
    && decide (tvShow.vote_average < preferences.min_imdb_rating.getD 0)

/-- Block 6 (Streaming Provider, soft): flat `+3` when a preference is
stated. -/
def tvStreamingBonus (preferences : UserTvShowPreferences) : ℚ :=
  if listTruthy preferences.preferred_streaming_providers then 3 else 0

/-- The conjunction of all five hard filters (the `meetsAllHardFilters`
flag of the source). -/
def tvMeetsAllHardFilters (tvShow : TvShow) (preferences : UserTvShowPreferences) : Bool :=
  !(tvGenreEval tvShow preferences).2
    && !(tvLanguageEval tvShow preferences).2
    && !tvYearFail tvShow preferences
    && !tvDurationFail tvShow preferences
    && !tvRatingFail tvShow preferences

/-- The per-tvShow score of `getContentBasedTvShowRecommendations`:
`0` when any hard filter fails, otherwise the accumulated soft score plus
the unconditional `5 + vote_average / 2` bonus. The scorer draws no
randomness. -/
def tvShowScore (tvShow : TvShow) (preferences : UserTvShowPreferences) : ℚ :=
  if tvMeetsAllHardFilters tvShow preferences then
    (tvGenreEval tvShow preferences).1 + (tvLanguageEval tvShow preferences).1
      + tvStreamingBonus preferences + 5 + tvShow.vote_average / 2
  else
    0

/-- `getContentBasedTvShowRecommendations(user, preferences, candidates,
count)`: score, keep positive scores, stable-sort descending, take
`count`. (`user` is only used for logging in the source.) -/
def getContentBasedTvShowRecommendations (preferences : UserTvShowPreferences)
    (candidateTvShows : List TvShow) (count : ℕ) : List TvShow :=
  let scoredShows :=
    sortByScoreDesc
      ((candidateTvShows.map fun tvShow => (tvShow, tvShowScore tvShow preferences)).filter
        fun item => decide (0 < item.2))
  (scoredShows.take count).map fun item => item.1

/-! ## TV-show orchestrator (`getTvShowRecommendationsForUser`)

The external collaborators (database, TMDB API) are awaited one at a time
in the single-threaded source, so they are embedded as a pure oracle
environment. `fetchSave` is the composite
`getTMDBTvShowDetails(id)` followed by `saveTvShow` used in phases 1 and 2
(either step returning nothing skips the candidate); `dbByTmdb` is the
`getTvShowByTmdbId` lookup tried first in phase 3; `popular` is
`getPopularTvShows()?.results` as a list of TMDB ids; `collab` is
`getTvShowRecommendations(tmdbId)?.results` likewise. -/

structure TvEnv where
  ratingsOf : ℕ → List TvRating
  popular : Option (List ℕ)
  fetchSave : ℕ → Option TvShow
  collab : ℕ → Option (List ℕ)
  dbByTmdb : ℕ → Option TvShow

/-- The mutable state of one orchestrator call: the accumulated
`recommendations` array and the in-place mutated exclusion set. -/
structure RecState where
  recommendations : List TvShow
  excl : Finset ℕ

def MIN_RATINGS_FOR_COLLABORATIVE_TV : ℕ := 2

/-- The append step shared by all phases: stop at `count`, skip an entity
whose `tmdb_id` is already in the accumulated list, otherwise push it and
add its `tmdb_id` to the exclusion set. -/
def pushIfNew (count : ℕ) (st : RecState) (s : TvShow) : RecState :=
  if count ≤ st.recommendations.length then st
  else if st.recommendations.any fun r => decide (r.tmdb_id = s.tmdb_id) then st
  else ⟨st.recommendations ++ [s], insert s.tmdb_id st.excl⟩

/-- `[...userRatings].sort((a, b) => b.rating - a.rating)` (stable). -/
def sortRatingsDesc (ratings : List TvRating) : List TvRating :=
  (sortByScoreDesc (ratings.map fun r => (r, r.rating))).map fun p => p.1

/-- Phase-1 candidate collection: the first 30 popular shows, minus those
already excluded at call time, detailed and upserted (`fetchSave`). -/
def tvCandidates (env : TvEnv) (excl0 : Finset ℕ) : List TvShow :=
  match env.popular with
  | some results =>
      (results.take 30).filterMap fun tmdbId =>
        if tmdbId ∈ excl0 then none else env.fetchSave tmdbId
  | none => []

/-- One phase-2 inner iteration over a collaborative-recommendation stub. -/
def phase2Step (env : TvEnv) (count : ℕ) (st : RecState) (tmdbId : ℕ) : RecState :=
  if count ≤ st.recommendations.length ∨ tmdbId ∈ st.excl then st
  else
    match env.fetchSave tmdbId with
    | none => st
    | some s => pushIfNew count st s

/-- One phase-2 outer iteration over a top-rated show. -/
def phase2Rated (env : TvEnv) (count : ℕ) (st : RecState) (rated : TvRating) : RecState :=
  if count ≤ st.recommendations.length then st
  else
    match env.collab rated.tv_show_tmdb_id with
    | none => st
    | some stubs => stubs.foldl (phase2Step env count) st

/-- Phase-3 lookup: the local catalog first (`getTvShowByTmdbId`, the show
may already be detailed from phase 1), then detail-fetch and upsert. -/
def tvPhase3Lookup (env : TvEnv) (tmdbId : ℕ) : Option TvShow :=
  match env.dbByTmdb tmdbId with
  | some s => some s
  | none => env.fetchSave tmdbId

/-- One phase-3 iteration over a popular-list stub. -/
def phase3Step (env : TvEnv) (count : ℕ) (st : RecState) (tmdbId : ℕ) : RecState :=
  if count ≤ st.recommendations.length ∨ tmdbId ∈ st.excl then st
  else
    match tvPhase3Lookup env tmdbId with
    | none => st
    | some s => pushIfNew count st s

/-- The state after Phase 1 (Content-Based): starting from the empty list
and the caller's exclusion set, the content-based recommendations are
appended in order. -/
def tvStage1 (env : TvEnv) (userPrefs : UserTvShowPreferences)
    (excl0 : Finset ℕ) (count : ℕ) : RecState :=
  let candidateTvShows := tvCandidates env excl0
  if 0 < candidateTvShows.length then
    (getContentBasedTvShowRecommendations userPrefs candidateTvShows count).foldl
      (pushIfNew count) ⟨[], excl0⟩
  else ⟨[], excl0⟩

/-- The state after Phase 2 (Collaborative): entered only while short of
`count` and with at least `MIN_RATINGS_FOR_COLLABORATIVE_TV` ratings; the
user's top-2 rated shows are processed in rating order. -/
def tvStage2 (env : TvEnv) (user : User) (userPrefs : UserTvShowPreferences)
    (excl0 : Finset ℕ) (count : ℕ) : RecState :=
  let userRatings := env.ratingsOf user.id
  let st1 := tvStage1 env userPrefs excl0 count
  if st1.recommendations.length < count
      ∧ MIN_RATINGS_FOR_COLLABORATIVE_TV ≤ userRatings.length then
    ((sortRatingsDesc userRatings).take 2).foldl (phase2Rated env count) st1
  else st1

/-- The state after Phase 3 (Fallback to Popular): entered only while
short of `count`; walks the whole popular list. -/
def tvStage3 (env : TvEnv) (user : User) (userPrefs : UserTvShowPreferences)
    (excl0 : Finset ℕ) (count : ℕ) : RecState :=
  let st2 := tvStage2 env user userPrefs excl0 count
  match env.popular with
  | some results =>
      if st2.recommendations.length < count then
        results.foldl (phase3Step env count) st2
      else st2
  | none => st2

/-- `getTvShowRecommendationsForUser(user, userPrefs, excludeTvShowTmdbIds,
count)`: the three phases in order, then `recommendations.slice(0, count)`.
The returned pair is (the returned list, the exclusion set as the in-place
mutations left it). -/
def getTvShowRecommendationsForUser (env : TvEnv) (user : User)
    (userPrefs : UserTvShowPreferences) (excludeTvShowTmdbIds : Finset ℕ)
    (count : ℕ) : List TvShow × Finset ℕ :=
  let st3 := tvStage3 env user userPrefs excludeTvShowTmdbIds count
  (st3.recommendations.take count, st3.excl)

/-! ### Available unseen candidates per phase (for the bounded-output
exactness property) -/

/-- Phase 1's available candidates: the tmdb ids of the content-based
recommendation list. -/
def tvPhase1Avail (env : TvEnv) (userPrefs : UserTvShowPreferences)
    (excl0 : Finset ℕ) (count : ℕ) : List ℕ :=
  (getContentBasedTvShowRecommendations userPrefs (tvCandidates env excl0) count).map
    fun s => s.tmdb_id

/-- Phase 2's available candidates: if the phase can be entered at all,
the collaborative stubs of the user's top-2 rated shows that are not
excluded at call time and whose detail-fetch-and-save succeeds. -/
def tvPhase2Avail (env : TvEnv) (user : User) (excl0 : Finset ℕ) : List ℕ :=
  let userRatings := env.ratingsOf user.id
  if MIN_RATINGS_FOR_COLLABORATIVE_TV ≤ userRatings.length then
    ((sortRatingsDesc userRatings).take 2).foldl
      (fun acc rated =>
        acc ++ (match env.collab rated.tv_show_tmdb_id with
          | none => []
          | some stubs =>
              stubs.filter fun tmdbId =>
                decide (tmdbId ∉ excl0) && (env.fetchSave tmdbId).isSome))
      []
  else []

/-- Phase 3's available candidates: popular-list stubs not excluded at
call time whose catalog lookup or detail fetch succeeds. -/
def tvPhase3Avail (env : TvEnv) (excl0 : Finset ℕ) : List ℕ :=
  match env.popular with
  | some results =>
      results.filter fun tmdbId =>
        decide (tmdbId ∉ excl0) && (tvPhase3Lookup env tmdbId).isSome
  | none => []

/-- The distinct unseen candidates the three phases together supply. -/
def tvSupply (env : TvEnv) (user : User) (userPrefs : UserTvShowPreferences)
    (excl0 : Finset ℕ) (count : ℕ) : Finset ℕ :=
  (tvPhase1Avail env userPrefs excl0 count ++ tvPhase2Avail env user excl0
    ++ tvPhase3Avail env excl0).toFinset

/-! ## Catalog upsert models

`saveRestaurantToDb` (`src/db/restaurantDb.ts`) and `saveTvShow`
(`src/db/tvShowDb.ts`). The SQLite stores are embedded as a row list plus
the AUTOINCREMENT counter. The source's catch-branch for a UNIQUE-key
violation is unreachable in the sequential model because the existence
check precedes the INSERT, and is not represented. -/

/-- `Omit<Restaurant, 'id'>`: the upsert payload. -/
structure RestaurantData where
  googlePlaceId : String
  name : String
  address : String
  cuisines : List String
  dietaryOptions : List String
  rating : ℚ
deriving Repr, DecidableEq

structure RestaurantDb where
  rows : List Restaurant
  nextId : ℕ
deriving Repr, DecidableEq

/-- `saveRestaurantToDb`: if a row with the same `googlePlaceId` exists it
is returned unchanged (`if (existing) return existing;`) — the stored
attributes are NOT refreshed; otherwise the payload is inserted with a
fresh local id. -/
def saveRestaurantToDb (restaurantData : RestaurantData) (db : RestaurantDb) :
    Option Restaurant × RestaurantDb :=
  match db.rows.find? fun r => decide (r.googlePlaceId = restaurantData.googlePlaceId) with
  | some existing => (some existing, db)
  | none =>
      let newRow : Restaurant :=
        ⟨some db.nextId, restaurantData.googlePlaceId, restaurantData.name,
          restaurantData.address, restaurantData.cuisines,
          restaurantData.dietaryOptions, restaurantData.rating⟩
      (some newRow, ⟨db.rows ++ [newRow], db.nextId + 1⟩)

/-- The `TMDBTvShow` payload of `saveTvShow`, restricted to the attributes
the core consumes (poster/backdrop paths, imdb id and the genre-id
remapping of `ensureFullTvGenreObjects` are orthogonal bookkeeping and are
not modelled). -/
structure TMDBTvShowData where
  id : ℕ
  name : String
  overview : String
  first_air_date : Option String
  vote_average : ℚ
  vote_count : ℕ
  genres : List Genre
  number_of_seasons : Option ℕ
  episode_run_time : Option (List ℚ)
  original_language : Option String
deriving Repr, DecidableEq

structure TvShowDb where
  rows : List TvShow
  nextId : ℕ
deriving Repr, DecidableEq

/-- The stored row for payload `d` under local id `localId`. -/
def tvRowFromData (localId : ℕ) (d : TMDBTvShowData) : TvShow :=
  ⟨localId, d.id, d.name, d.overview, d.first_air_date, d.vote_average,
    d.vote_count, d.genres, d.number_of_seasons, d.episode_run_time,
    d.original_language⟩

/-- `saveTvShow`: if a row with the same `tmdb_id` exists, all its
attributes are UPDATEd in place (the local id and `tmdb_id` key are
untouched by the UPDATE's SET list) and the refreshed row is returned;
otherwise the payload is inserted with a fresh local id. -/
def saveTvShow (tvShowData : TMDBTvShowData) (db : TvShowDb) :
    Option TvShow × TvShowDb :=
  match db.rows.find? fun r => decide (r.tmdb_id = tvShowData.id) with
  | some existing =>
      let updated := tvRowFromData existing.id tvShowData
      (some updated,
        ⟨db.rows.map fun r => if r.tmdb_id = tvShowData.id then updated else r,
          db.nextId⟩)
  | none =>
      let newRow := tvRowFromData db.nextId tvShowData
      (some newRow, ⟨db.rows ++ [newRow], db.nextId + 1⟩)

/-! ## External restaurant provider (`fetchRestaurantsFromGooglePlaces`,
`src/googleApiService.ts`)

The whole network interaction of one call is summarised by a
`GoogleFetchOutcome`: the `fetch`/`json()` pair either throws (`thrown`,
caught by the source's `try/catch`), yields a non-OK HTTP response
(`httpError`), or yields a parsed body with a `status`, an optional
`error_message` and an optional `results` array. The embedding is a total
function — the source catches every exception and falls back to the empty
array, so no exception propagates to the caller. -/

structure GooglePlace where
  place_id : String
  name : Option String
  formatted_address : Option String
  vicinity : Option String
  types : Option (List String)
  rating : Option ℚ
deriving Repr, DecidableEq

inductive GoogleFetchOutcome where
  | thrown
  | httpError
  | apiResponse (status : String) (error_message : Option String)
      (results : Option (List GooglePlace))
deriving Repr, DecidableEq

/-- JS `a || default` on an optional string (empty string is falsy). -/
def jsStrOr (o : Option String) (dflt : String) : String :=
  match o with
  | some s => if s = "" then dflt else s
  | none => dflt

/-- Keep-first-occurrence de-duplication (`[...new Set(xs)]`). -/
def dedupKeepFirst (l : List String) : List String :=
  l.foldl (fun acc x => if acc.contains x then acc else acc ++ [x]) []

/-- The `typeMap` of `mapGoogleTypesToCuisines`. -/
def typeMapLookup (t : String) : Option String :=
  if t = "cafe" then some "Cafe"
  else if t = "bakery" then some "Bakery"
  else if t = "bar" then some "Bar"
  else none

/-- `word.charAt(0).toUpperCase() + word.slice(1)`. -/
def capitalizeWord (w : String) : String :=
  match w.data with
  | [] => ""
  | c :: t => String.mk (c.toUpper :: t)

/-- Remove the first occurrence of `pat` (JS `replace(pat, '')`). -/
def removeFirstInfix (pat : List Char) : List Char → List Char
  | [] => []
  | c :: t =>
      if pat.isPrefixOf (c :: t) then (c :: t).drop pat.length
      else c :: removeFirstInfix pat t

/-- `type.replace('_restaurant', '').split('_').map(capitalize).join(' ')`. -/
def cuisineFromRestaurantType (t : String) : String :=
  String.intercalate " "
    (((String.mk (removeFirstInfix "_restaurant".data t.data)).splitOn "_").map
      capitalizeWord)

def GOOGLE_NAME_KEYWORDS : List (String × String) :=
  [("pizza", "Pizza"), ("sushi", "Sushi"), ("burger", "Burgers"),
   ("taco", "Mexican"), ("pho", "Vietnamese"), ("curry", "Indian"),
   ("pasta", "Italian"), ("steakhouse", "Steakhouse")]

def mapGoogleTypesToCuisines (googleTypes : Option (List String))
    (placeName : String) : List String :=
  match googleTypes with
  | none => ["Miscellaneous"]
  | some types =>
      let cuisines := types.foldl
        (fun cs t =>
          match typeMapLookup t with
          | some c => if cs.contains c then cs else cs ++ [c]
          | none =>
              if strIncludes t "_restaurant" then
                let c := cuisineFromRestaurantType t
                if cs.contains c then cs else cs ++ [c]
              else cs)
        []
      let cuisines := GOOGLE_NAME_KEYWORDS.foldl
        (fun cs kw =>
          if strIncludes (strLower placeName) kw.1 && !cs.contains kw.2 then
            cs ++ [kw.2]
          else cs)
        cuisines
      let cuisines :=
        if types.contains "restaurant" && cuisines.isEmpty then
          cuisines ++ ["Restaurant"]
        else cuisines
      let cuisines := if cuisines.isEmpty then cuisines ++ ["Food"] else cuisines
      dedupKeepFirst cuisines

def mapGoogleTypesToDietary (googleTypes : Option (List String)) : List String :=
  match googleTypes with
  | none => []
  | some types =>
      let dietary :=
        if types.contains "vegetarian_restaurant" then ["vegetarian"] else []
      let dietary :=
        if types.contains "vegan_restaurant" then dietary ++ ["vegan"] else dietary
      dedupKeepFirst dietary

/-- The per-place mapping of the success path. -/
def placeToRestaurantData (place : GooglePlace) : RestaurantData :=
  { googlePlaceId := place.place_id
    name := jsStrOr place.name "Name N/A"
    address := jsStrOr place.formatted_address (jsStrOr place.vicinity "Address N/A")
    cuisines := mapGoogleTypesToCuisines place.types (jsStrOr place.name "")
    dietaryOptions := mapGoogleTypesToDietary place.types
    rating := place.rating.getD 0 }

/-- `fetchRestaurantsFromGooglePlaces(locationQuery, maxResults)`. The
location query only feeds the HTTP request and does not influence the
control flow, so it is not a parameter of the embedding. -/
def fetchRestaurantsFromGooglePlaces (apiKey : Option String)
    (outcome : GoogleFetchOutcome) (maxResults : ℕ) : List RestaurantData :=
  if !strTruthy apiKey then []
  else
    match outcome with
    | .thrown => []
    | .httpError => []
    | .apiResponse status _ results =>
        if status ≠ "OK" ∧ status ≠ "ZERO_RESULTS" then []
        else if status = "ZERO_RESULTS" ∨ results.getD [] = [] then []
        else ((results.getD []).take maxResults).map placeToRestaurantData

/-- The failure modes of one provider call named by the error-handling
design: missing credential, HTTP/transport failure or thrown exception,
API-level status error, or zero results. -/
def googleFailureMode (apiKey : Option String) (outcome : GoogleFetchOutcome) : Prop :=
  strTruthy apiKey = false
  ∨ outcome = .thrown
  ∨ outcome = .httpError
  ∨ (∃ status errMsg results, outcome = .apiResponse status errMsg results
      ∧ ((status ≠ "OK" ∧ status ≠ "ZERO_RESULTS") ∨ status = "ZERO_RESULTS"
          ∨ results.getD [] = []))

/-! ## Randomness bookkeeping and call-state views used by the claims -/

/-- The TV content scorer against the ambient random state: the source
consumes no randomness when scoring a TV show, so the draw argument is
unused and the score is independent of it (contrast `calculateMatchScore`,
which adds `Math.random() * 5`). -/
def tvShowScoreWithRand (tvShow : TvShow) (preferences : UserTvShowPreferences)
    (rand : ℚ) : ℚ :=
  tvShowScore tvShow preferences

/-- The restaurant recommender together with the exclusion set as the call
leaves it: the source's `getRecommendations` only reads `excludeIds`
(`.has`) and never calls `.add`, so the post-call set is the pre-call
set. -/
def getRecommendationsWithExcl (user : RestUser) (allRestaurants : List Restaurant)
    (excludeIds : Finset ℕ) (rand : ℕ → ℚ) : List Restaurant × Finset ℕ :=
  (getRecommendations user allRestaurants excludeIds rand, excludeIds)

/-- The tmdb ids of the accumulated recommendation list. -/
def recIds (st : RecState) : List ℕ :=
  st.recommendations.map fun s => s.tmdb_id

/-- Invariant of the orchestrator state during one call that started with
exclusion set `excl0`: the exclusion set is exactly `excl0` plus the ids
appended so far, appended ids are pairwise distinct and outside `excl0`,
and the list never exceeds `count`. -/
def TvInv (excl0 : Finset ℕ) (count : ℕ) (st : RecState) : Prop :=
  (∀ n, n ∈ st.excl ↔ (n ∈ excl0 ∨ n ∈ recIds st))
  ∧ (recIds st).Nodup
  ∧ (∀ s ∈ st.recommendations, s.tmdb_id ∉ excl0)
  ∧ st.recommendations.length ≤ count

/-! ## Concrete inputs used by counterexamples and witnesses -/

/-- A comedy show passing every non-genre filter (no other constraint is
stated by the preference records below). -/
def exTvShowDrama : TvShow :=
  ⟨1, 101, "ShowX", "", some "2020-01-01", 8, 100, [⟨35, "Comedy"⟩], none, none, none⟩

/-- TV preferences whose only constraint is `preferred_genres = ["Drama"]`. -/
def exTvPrefsGenre : UserTvShowPreferences :=
  ⟨1, some ["Drama"], none, none, none, none, none, none, none⟩

/-- TV preferences with no constraint at all. -/
def exTvPrefsNoGenre : UserTvShowPreferences :=
  ⟨1, none, none, none, none, none, none, none, none⟩

/-- A show with vote average 0 (for base-bonus witnesses). -/
def exTvShowZero : TvShow :=
  ⟨2, 102, "ZeroShow", "", none, 0, 0, [], none, none, none⟩

/-- An Italian vegetarian-friendly restaurant with rating 3. -/
def exRestItalianVeg : Restaurant :=
  ⟨some 1, "g1", "Trattoria", "addr", ["Italian"], ["vegetarian"], 3⟩

/-- Restaurant preferences: Italian, vegetarian, minimum rating 4. -/
def exPrefsHard : UserPreferences :=
  ⟨["Italian"], ["vegetarian"], 4⟩

/-- Scenario catalog of the spec's concrete test: A (Italian,
[vegetarian, vegan], 4.5), B (Mexican, [vegetarian], 4.8),
C (Italian, [], 4.2). -/
def restA : Restaurant :=
  ⟨some 1, "gA", "A", "addr", ["Italian"], ["vegetarian", "vegan"], 45 / 10⟩

def restB : Restaurant :=
  ⟨some 2, "gB", "B", "addr", ["Mexican"], ["vegetarian"], 48 / 10⟩

def restC : Restaurant :=
  ⟨some 3, "gC", "C", "addr", ["Italian"], [], 42 / 10⟩

def userC8 : RestUser := ⟨1, "U", exPrefsHard⟩

/-- Six distinct restaurants that all match fully open preferences. -/
def exSixRestaurants : List Restaurant :=
  [⟨some 1, "p1", "R1", "", [], [], 5⟩, ⟨some 2, "p2", "R2", "", [], [], 5⟩,
   ⟨some 3, "p3", "R3", "", [], [], 5⟩, ⟨some 4, "p4", "R4", "", [], [], 5⟩,
   ⟨some 5, "p5", "R5", "", [], [], 5⟩, ⟨some 6, "p6", "R6", "", [], [], 5⟩]

/-- Fully open restaurant preferences. -/
def exPrefsOpen : UserPreferences := ⟨[], [], 1⟩

def exUserOpen : RestUser := ⟨1, "open", exPrefsOpen⟩

/-- Upsert payloads sharing one external id with drifted attributes. -/
def exRestData1 : RestaurantData := ⟨"gp1", "N1", "A1", ["Italian"], [], 4⟩

def exRestData2 : RestaurantData := ⟨"gp1", "N1-new", "A1-new", ["Italian"], ["vegan"], 5⟩

def exTvData1 : TMDBTvShowData :=
  ⟨500, "S", "o", some "2020-01-01", 7, 10, [], none, none, some "en"⟩

def exTvData2 : TMDBTvShowData :=
  ⟨500, "S-new", "o2", some "2021-02-02", 9, 20, [], none, none, some "en"⟩

/-- A minimal TV-orchestrator environment: one popular show (tmdb id 7),
every detail fetch succeeds, no ratings, no collaborative endpoint data,
empty local catalog. -/
def exTvShowOf (tmdbId : ℕ) : TvShow :=
  ⟨0, tmdbId, "P", "", none, 8, 0, [], none, none, none⟩

def exTvEnv : TvEnv :=
  { ratingsOf := fun _ => []
    popular := some [7]
    fetchSave := fun n => some (exTvShowOf n)
    collab := fun _ => none
    dbByTmdb := fun _ => none }

def exTvUser : User := ⟨1, "tv-user"⟩

/-! # Theorems

## Generic lemmas about the stable sort -/

theorem mem_insertDesc {α : Type} {x y : α × ℚ} {l : List (α × ℚ)}
    (h : y ∈ insertDesc x l) : y = x ∨ y ∈ l := by
  induction l with
  | nil => simpa [insertDesc] using h
  | cons z zs ih =>
    by_cases hc : z.2 ≤ x.2
    · rcases by simpa [insertDesc, hc] using h with h1 | h1 | h1
      · exact Or.inl h1
      · exact Or.inr (by simp [h1])
      · exact Or.inr (by simp [h1])
    · rcases by simpa [insertDesc, hc] using h with h1 | h1
      · exact Or.inr (by simp [h1])
      · rcases ih h1 with h2 | h2
        · exact Or.inl h2
        · exact Or.inr (by simp [h2])

theorem mem_sortByScoreDesc {α : Type} {y : α × ℚ} {l : List (α × ℚ)}
    (h : y ∈ sortByScoreDesc l) : y ∈ l := by
  induction l with
  | nil => simpa [sortByScoreDesc] using h
  | cons x xs ih =>
    rcases mem_insertDesc (by simpa [sortByScoreDesc] using h) with h1 | h1
    · simp [h1]
    · simp [ih h1]

theorem insertDesc_perm {α : Type} (x : α × ℚ) (l : List (α × ℚ)) :
    (insertDesc x l).Perm (x :: l) := by
  induction l with
  | nil => simp [insertDesc]
  | cons z zs ih =>
    by_cases hc : z.2 ≤ x.2
    · simp [insertDesc, hc]
    · simp only [insertDesc, hc, if_neg]
      exact (ih.cons z).trans (List.Perm.swap x z zs)

theorem sortByScoreDesc_perm {α : Type} (l : List (α × ℚ)) :
    (sortByScoreDesc l).Perm l := by
  induction l with
  | nil => simp [sortByScoreDesc]
  | cons x xs ih =>
    exact (insertDesc_perm x (sortByScoreDesc xs)).trans (ih.cons x)

/-! ## Component bounds of the scorers -/

theorem cuisineMatchScore_nonneg (restaurant : Restaurant) (p : UserPreferences) :
    0 ≤ cuisineMatchScore restaurant p := by
  simp only [cuisineMatchScore]
  split
  · norm_num [CUISINE_MATCH_SCORE]
  · split
    · norm_num [CUISINE_MATCH_SCORE]
    · norm_num

theorem dietaryScore_ge_ten (p : UserPreferences) : 10 ≤ dietaryScore p := by
  unfold dietaryScore
  split
  · norm_num [DIETARY_MATCH_SCORE]
  · norm_num [DIETARY_MATCH_SCORE]

theorem tvGenreEval_fst_nonneg (tvShow : TvShow) (p : UserTvShowPreferences) :
    0 ≤ (tvGenreEval tvShow p).1 := by
  simp only [tvGenreEval]
  split
  · split
    · norm_num
    · simp only [Prod.fst]
      positivity
  · norm_num

theorem tvLanguageEval_fst_nonneg (tvShow : TvShow) (p : UserTvShowPreferences) :
    0 ≤ (tvLanguageEval tvShow p).1 := by
  simp only [tvLanguageEval]
  split
  · split
    · norm_num
    · norm_num
  · norm_num

theorem tvStreamingBonus_nonneg (p : UserTvShowPreferences) :
    0 ≤ tvStreamingBonus p := by
  unfold tvStreamingBonus
  split
  · norm_num
  · norm_num

theorem tvShowScore_of_fail {tvShow : TvShow} {p : UserTvShowPreferences}
    (h : tvMeetsAllHardFilters tvShow p = false) : tvShowScore tvShow p = 0 := by
  simp [tvShowScore, h]

theorem tvShowScore_of_pass {tvShow : TvShow} {p : UserTvShowPreferences}
    (h : tvMeetsAllHardFilters tvShow p = true) :
    tvShowScore tvShow p
      = (tvGenreEval tvShow p).1 + (tvLanguageEval tvShow p).1
        + tvStreamingBonus p + 5 + tvShow.vote_average / 2 := by
  simp [tvShowScore, h]

/-- The zero-score characterization of the restaurant scorer: with a
non-negative jitter draw, the score is `0` exactly on the two hard-reject
paths (dietary failure, or rating below minimum without a strong enough
remaining score). -/
theorem calculateMatchScore_zero_iff (restaurant : Restaurant)
    (p : UserPreferences) (rand : ℚ) (h : 0 ≤ rand) :
    calculateMatchScore restaurant p rand = 0 ↔
      ((0 < p.dietaryRestrictions.length
          ∧ meetsAllRestrictions restaurant p.dietaryRestrictions = false)
        ∨ (restaurant.rating < p.minRating
          ∧ cuisineMatchScore restaurant p + dietaryScore p
              < (CUISINE_MATCH_SCORE + DIETARY_MATCH_SCORE) / 2)) := by
  have hc := cuisineMatchScore_nonneg restaurant p
  have hd := dietaryScore_ge_ten p
  unfold calculateMatchScore
  by_cases hdf : 0 < p.dietaryRestrictions.length
      ∧ meetsAllRestrictions restaurant p.dietaryRestrictions = false
  · simp [hdf]
  · by_cases hle : p.minRating ≤ restaurant.rating
    · have hmargin : 0 ≤ (restaurant.rating - p.minRating) * RATING_BONUS_PER_POINT := by
        have : (0:ℚ) ≤ RATING_BONUS_PER_POINT := by norm_num [RATING_BONUS_PER_POINT]
        exact mul_nonneg (sub_nonneg.2 hle) this
      have hrand5 : 0 ≤ rand * 5 := by positivity
      simp only [hdf, if_false, hle, if_true]
      constructor
      · intro h0
        exfalso
        nlinarith
      · rintro (h1 | h1)
        · exact h1.elim
        · exact absurd hle (not_le.2 h1.1)
    · have hlt := not_le.1 hle
      by_cases hth : cuisineMatchScore restaurant p + dietaryScore p
          < (CUISINE_MATCH_SCORE + DIETARY_MATCH_SCORE) / 2
      · simp [hdf, hle, hth, hlt]
      · have hge := not_lt.1 hth
        have hrand5 : 0 ≤ rand * 5 := by positivity
        simp only [hdf, if_false, hle, hth]
        constructor
        · intro h0
          exfalso
          have : (0:ℚ) < CUISINE_MATCH_SCORE + DIETARY_MATCH_SCORE := by
            norm_num [CUISINE_MATCH_SCORE, DIETARY_MATCH_SCORE]
          nlinarith
        · rintro (h1 | h1)
          · exact h1.elim
          · exact h1.2.elim

/-- Concrete evaluation: `exRestItalianVeg` against `exPrefsHard` scores
`80` plus the jitter term (dietary met, cuisine matched, rating below
minimum but the remaining score clears the softly-hard threshold). -/
theorem exRestItalianVeg_score (rand : ℚ) :
    calculateMatchScore exRestItalianVeg exPrefsHard rand = 80 + rand * 5 := by
  have hmeets : meetsAllRestrictions exRestItalianVeg exPrefsHard.dietaryRestrictions = true := rfl
  have hcu : cuisineMatchScore exRestItalianVeg exPrefsHard = 30 := rfl
  have hdi : dietaryScore exPrefsHard = 50 := rfl
  have hdf : ¬(0 < exPrefsHard.dietaryRestrictions.length
      ∧ meetsAllRestrictions exRestItalianVeg exPrefsHard.dietaryRestrictions = false) := by
    rintro ⟨h1, h2⟩
    rw [hmeets] at h2
    cases h2
  have hnle : ¬(exPrefsHard.minRating ≤ exRestItalianVeg.rating) := by decide
  have hnlt : ¬(cuisineMatchScore exRestItalianVeg exPrefsHard + dietaryScore exPrefsHard
      < (CUISINE_MATCH_SCORE + DIETARY_MATCH_SCORE) / 2) := by
    rw [hcu, hdi]
    norm_num [CUISINE_MATCH_SCORE, DIETARY_MATCH_SCORE]
  simp only [calculateMatchScore]
  rw [if_neg hdf, if_neg hnle, if_neg hnlt, hcu, hdi]
  norm_num

/-! ## Claim C10 -/

/-- C10 (confirmed): in the TV content scorer every candidate passing all
hard filters receives the unconditional base bonus `5 + vote_average / 2`
on top of the accumulated soft score, so for every show with non-negative
vote average the score is strictly positive iff the show passes every hard
filter — the positive-score filter retains exactly the hard-filter-passing
shows. The scorer is a pure function of show and preferences
(deterministic). -/
theorem c10_tv_base_bonus_and_positivity (tvShow : TvShow)
    (preferences : UserTvShowPreferences) (h : 0 ≤ tvShow.vote_average) :
    (tvMeetsAllHardFilters tvShow preferences = true →
      tvShowScore tvShow preferences
        = (tvGenreEval tvShow preferences).1 + (tvLanguageEval tvShow preferences).1
          + tvStreamingBonus preferences + 5 + tvShow.vote_average / 2)
    ∧ (0 < tvShowScore tvShow preferences
        ↔ tvMeetsAllHardFilters tvShow preferences = true) := by
  have hg := tvGenreEval_fst_nonneg tvShow preferences
  have hl := tvLanguageEval_fst_nonneg tvShow preferences
  have hs := tvStreamingBonus_nonneg preferences
  refine ⟨fun hm => tvShowScore_of_pass hm, ?_⟩
  cases hm : tvMeetsAllHardFilters tvShow preferences with
  | false => simp [tvShowScore_of_fail hm]
  | true =>
      rw [tvShowScore_of_pass hm]
      simp only [iff_true]
      linarith

/-- Witness for C10 at a concrete show with vote average `0` and empty
preferences. -/
theorem c10_witness :
    0 ≤ exTvShowZero.vote_average
    ∧ ((tvMeetsAllHardFilters exTvShowZero exTvPrefsNoGenre = true →
        tvShowScore exTvShowZero exTvPrefsNoGenre
          = (tvGenreEval exTvShowZero exTvPrefsNoGenre).1
            + (tvLanguageEval exTvShowZero exTvPrefsNoGenre).1
            + tvStreamingBonus exTvPrefsNoGenre + 5 + exTvShowZero.vote_average / 2)
      ∧ (0 < tvShowScore exTvShowZero exTvPrefsNoGenre
          ↔ tvMeetsAllHardFilters exTvShowZero exTvPrefsNoGenre = true)) :=
  ⟨le_refl 0, c10_tv_base_bonus_and_positivity exTvShowZero exTvPrefsNoGenre (le_refl 0)⟩

/-! ## Claim C1 -/

/-- C1 counterexample: in the TV domain a stated genre preference with
zero overlap IS a hard filter. `exTvShowDrama` passes every other filter
(it scores positively once the genre preference is dropped), yet scores
exactly `0` under `preferred_genres = ["Drama"]`. -/
theorem c1_counterexample :
    tvShowScore exTvShowDrama exTvPrefsGenre = 0
    ∧ 0 < tvShowScore exTvShowDrama exTvPrefsNoGenre := by
  constructor
  · rfl
  · have hm : tvMeetsAllHardFilters exTvShowDrama exTvPrefsNoGenre = true := by rfl
    rw [tvShowScore_of_pass hm]
    have h1 : (tvGenreEval exTvShowDrama exTvPrefsNoGenre).1 = 2 := by rfl
    have h2 : (tvLanguageEval exTvShowDrama exTvPrefsNoGenre).1 = 0 := by rfl
    have h3 : tvStreamingBonus exTvPrefsNoGenre = 0 := by rfl
    rw [h1, h2, h3]
    norm_num [exTvShowDrama]

/-- C1 corrected: category preference is a soft signal in the RESTAURANT
domain only — a restaurant meeting the dietary and rating constraints
scores positively regardless of cuisine overlap. In the TV domain a
stated genre preference with zero overlap is a hard filter forcing the
score to `0`. -/
theorem c1_amended (restaurant : Restaurant) (p : UserPreferences) (rand : ℚ)
    (hrand : 0 ≤ rand)
    (hdiet : 0 < p.dietaryRestrictions.length →
      meetsAllRestrictions restaurant p.dietaryRestrictions = true)
    (hrat : p.minRating ≤ restaurant.rating) :
    0 < calculateMatchScore restaurant p rand
    ∧ ∀ (tvShow : TvShow) (tp : UserTvShowPreferences),
        listTruthy tp.preferred_genres = true →
        ((tp.preferred_genres.getD []).map strLower).countP
          (fun pg => (tvShow.genres.map fun g => strLower g.name).contains pg) = 0 →
        tvShowScore tvShow tp = 0 := by
  constructor
  · have hc := cuisineMatchScore_nonneg restaurant p
    have hd := dietaryScore_ge_ten p
    have hdf : ¬(0 < p.dietaryRestrictions.length
        ∧ meetsAllRestrictions restaurant p.dietaryRestrictions = false) := by
      rintro ⟨hl, hm⟩
      rw [hdiet hl] at hm
      cases hm
    have hmargin : 0 ≤ (restaurant.rating - p.minRating) * RATING_BONUS_PER_POINT := by
      have h5 : (0:ℚ) ≤ RATING_BONUS_PER_POINT := by norm_num [RATING_BONUS_PER_POINT]
      exact mul_nonneg (sub_nonneg.2 hrat) h5
    have hr5 : 0 ≤ rand * 5 := by positivity
    simp only [calculateMatchScore, hdf, if_false, hrat, if_true]
    linarith
  · intro tvShow tp hTruthy hcount
    have hg : tvGenreEval tvShow tp = (0, true) := by
      simp only [tvGenreEval, hTruthy, if_true]
      exact if_pos hcount
    apply tvShowScore_of_fail
    simp [tvMeetsAllHardFilters, hg]

/-- Witness for the amended C1 at a concrete restaurant meeting the
(empty) dietary constraint and the minimum rating. -/
theorem c1_amended_witness :
    0 ≤ (0:ℚ)
    ∧ exPrefsOpen.minRating ≤ exRestItalianVeg.rating
    ∧ 0 < calculateMatchScore exRestItalianVeg exPrefsOpen 0 :=
  ⟨le_refl 0, by decide,
    (c1_amended exRestItalianVeg exPrefsOpen 0 (le_refl 0) (fun _ => rfl) (by decide)).1⟩

/-! ## Claim C3 -/

/-- C3 counterexample: with the two stated constraints
`dietaryRestrictions = ["vegetarian"]` and `minRating = 4`, the restaurant
`exRestItalianVeg` satisfies the dietary constraint and fails ONLY the
minimum-rating constraint (rating 3 < 4), yet scores 80, not 0 — the
restaurant minimum-rating bound is not an unconditional hard filter. -/
theorem c3_counterexample :
    exRestItalianVeg.rating < exPrefsHard.minRating
    ∧ 0 < exPrefsHard.dietaryRestrictions.length
    ∧ meetsAllRestrictions exRestItalianVeg exPrefsHard.dietaryRestrictions = true
    ∧ calculateMatchScore exRestItalianVeg exPrefsHard 0 = 80 := by
  refine ⟨by decide, by decide, rfl, ?_⟩
  rw [exRestItalianVeg_score 0]
  norm_num

/-- C3 corrected: hard filtering is an unconditional AND in the TV domain
(any failed filter zeroes the score), and for the restaurant dietary
constraint; the restaurant minimum-rating bound is "softly hard" — with
the other constraints met it zeroes the score exactly when the remaining
deterministic score is below half the combined cuisine+dietary weight. -/
theorem c3_amended :
    (∀ (tvShow : TvShow) (tp : UserTvShowPreferences),
        tvMeetsAllHardFilters tvShow tp = false → tvShowScore tvShow tp = 0)
    ∧ (∀ (r : Restaurant) (p : UserPreferences) (rand : ℚ),
        0 < p.dietaryRestrictions.length →
        meetsAllRestrictions r p.dietaryRestrictions = false →
        calculateMatchScore r p rand = 0)
    ∧ (∀ (r : Restaurant) (p : UserPreferences) (rand : ℚ), 0 ≤ rand →
        (0 < p.dietaryRestrictions.length →
          meetsAllRestrictions r p.dietaryRestrictions = true) →
        r.rating < p.minRating →
        (calculateMatchScore r p rand = 0 ↔
          cuisineMatchScore r p + dietaryScore p
            < (CUISINE_MATCH_SCORE + DIETARY_MATCH_SCORE) / 2)) := by
  refine ⟨fun tvShow tp h => tvShowScore_of_fail h, ?_, ?_⟩
  · intro r p rand hl hm
    simp [calculateMatchScore, hl, hm]
  · intro r p rand hrand hdiet hlt
    rw [calculateMatchScore_zero_iff r p rand hrand]
    constructor
    · rintro (⟨hl, hm⟩ | ⟨_, h⟩)
      · rw [hdiet hl] at hm
        cases hm
      · exact h
    · intro h
      exact Or.inr ⟨hlt, h⟩

/-- Witness for the amended C3: a TV show failing the genre hard filter
scores 0. -/
theorem c3_amended_witness :
    tvMeetsAllHardFilters exTvShowDrama exTvPrefsGenre = false
    ∧ tvShowScore exTvShowDrama exTvPrefsGenre = 0 :=
  ⟨rfl, c3_amended.1 exTvShowDrama exTvPrefsGenre rfl⟩

/-! ## Claim C4 -/

/-- C4 counterexample: in the TV domain the no-preference category bonus
is the flat `2`, which is NOT one half of the per-match genre weight
(`5 / 2`). -/
theorem c4_counterexample :
    tvGenreEval exTvShowDrama exTvPrefsNoGenre = (2, false) ∧ (2:ℚ) ≠ 5 / 2 :=
  ⟨rfl, by norm_num⟩

/-- C4 corrected: with an unset/"Any" category preference no entity is
rejected on the category axis in either domain; the bonus is exactly half
the per-match weight (`30 / 2`) in the restaurant domain but the flat `2`
(not `5 / 2`) in the TV domain. -/
theorem c4_amended :
    (∀ (r : Restaurant) (p : UserPreferences),
        (p.favoriteCuisines.contains "Any" || p.favoriteCuisines.isEmpty) = true →
        cuisineMatchScore r p = CUISINE_MATCH_SCORE / 2)
    ∧ (∀ (tvShow : TvShow) (tp : UserTvShowPreferences),
        listTruthy tp.preferred_genres = false →
        tvGenreEval tvShow tp = (2, false)) := by
  constructor
  · intro r p h
    simp only [cuisineMatchScore]
    exact if_pos h
  · intro tvShow tp h
    simp [tvGenreEval, h]

/-- Witness for the amended C4 at empty cuisine preferences. -/
theorem c4_amended_witness :
    (exPrefsOpen.favoriteCuisines.contains "Any" || exPrefsOpen.favoriteCuisines.isEmpty) = true
    ∧ cuisineMatchScore exRestItalianVeg exPrefsOpen = CUISINE_MATCH_SCORE / 2 :=
  ⟨rfl, c4_amended.1 exRestItalianVeg exPrefsOpen rfl⟩

/-! ## Claim C6 -/

/-- C6 counterexample: the restaurant scorer's output varies with the
`Math.random()` draw, but the TV scorer's does not — the TV domain's
scoring function adds no random perturbation at all. -/
theorem c6_counterexample :
    calculateMatchScore exRestItalianVeg exPrefsHard 0
        ≠ calculateMatchScore exRestItalianVeg exPrefsHard (1/2)
    ∧ tvShowScoreWithRand exTvShowDrama exTvPrefsNoGenre 0
        = tvShowScoreWithRand exTvShowDrama exTvPrefsNoGenre (1/2) := by
  refine ⟨?_, rfl⟩
  rw [exRestItalianVeg_score 0, exRestItalianVeg_score (1/2)]
  norm_num

/-- C6 corrected: only the restaurant scorer draws jitter
(`Math.random() * 5`); the TV scorer is fully deterministic. In both
domains, whether an entity is hard-rejected (score exactly 0) is the same
for every value of the jitter draw. -/
theorem c6_amended (r : Restaurant) (p : UserPreferences) (j1 j2 : ℚ)
    (h1 : 0 ≤ j1) (h2 : 0 ≤ j2) :
    (calculateMatchScore r p j1 = 0 ↔ calculateMatchScore r p j2 = 0)
    ∧ ∀ (tvShow : TvShow) (tp : UserTvShowPreferences) (r1 r2 : ℚ),
        tvShowScoreWithRand tvShow tp r1 = tvShowScoreWithRand tvShow tp r2 := by
  refine ⟨?_, fun _ _ _ _ => rfl⟩
  rw [calculateMatchScore_zero_iff r p j1 h1, calculateMatchScore_zero_iff r p j2 h2]

/-- Witness for the amended C6 at two concrete draws. -/
theorem c6_amended_witness :
    0 ≤ (0:ℚ)
    ∧ 0 ≤ (1:ℚ)
    ∧ (calculateMatchScore exRestItalianVeg exPrefsHard 0 = 0
        ↔ calculateMatchScore exRestItalianVeg exPrefsHard 1 = 0) :=
  ⟨le_refl 0, by decide,
    (c6_amended exRestItalianVeg exPrefsHard 0 1 (le_refl 0) (by decide)).1⟩

/-! ## Claim C9 -/

/-- C9 (confirmed): every failure mode of the provider fetch — missing API
key, non-OK HTTP response, API-level status error, zero results, or an
exception thrown during fetch/parse (modelled by the `thrown` outcome,
which the source's `try/catch` maps to the empty-array fallback, so no
exception reaches the caller) — yields the empty list. -/
theorem c9_provider_failure_yields_empty (apiKey : Option String)
    (outcome : GoogleFetchOutcome) (maxResults : ℕ)
    (h : googleFailureMode apiKey outcome) :
    fetchRestaurantsFromGooglePlaces apiKey outcome maxResults = [] := by
  rcases h with h | h | h | ⟨status, errMsg, results, rfl, hcase⟩
  · simp [fetchRestaurantsFromGooglePlaces, h]
  · subst h
    cases hk : strTruthy apiKey <;> simp [fetchRestaurantsFromGooglePlaces, hk]
  · subst h
    cases hk : strTruthy apiKey <;> simp [fetchRestaurantsFromGooglePlaces, hk]
  · cases hk : strTruthy apiKey
    · simp [fetchRestaurantsFromGooglePlaces, hk]
    · rcases hcase with ⟨hne1, hne2⟩ | hz | hr
      · simp [fetchRestaurantsFromGooglePlaces, hk, hne1, hne2]
      · subst hz
        simp [fetchRestaurantsFromGooglePlaces, hk]
      · by_cases hs : status ≠ "OK" ∧ status ≠ "ZERO_RESULTS"
        · simp [fetchRestaurantsFromGooglePlaces, hk, hs]
        · simp [fetchRestaurantsFromGooglePlaces, hk, hs, hr]

/-- Witness for C9 at the missing-credential failure mode. -/
theorem c9_witness :
    googleFailureMode none GoogleFetchOutcome.thrown
    ∧ fetchRestaurantsFromGooglePlaces none GoogleFetchOutcome.thrown 20 = [] :=
  ⟨Or.inl rfl,
    c9_provider_failure_yields_empty none GoogleFetchOutcome.thrown 20 (Or.inl rfl)⟩

/-! ## Claim C5: upsert behavior of the two catalog stores -/

theorem map_id_of_untouched {α : Type} (f : α → α) :
    ∀ (l : List α), (∀ x ∈ l, f x = x) → l.map f = l
  | [], _ => rfl
  | a :: t, h => by
      rw [List.map_cons, h a (by simp), map_id_of_untouched f t fun x hx => h x (by simp [hx])]

theorem find?_append_right {α : Type} (p : α → Bool) {l1 : List α}
    (h : ∀ x ∈ l1, p x = false) (l2 : List α) :
    (l1 ++ l2).find? p = l2.find? p := by
  induction l1 with
  | nil => simp
  | cons a t ih =>
      rw [List.cons_append, List.find?_cons_of_neg _ (by simp [h a (by simp)]),
        ih fun x hx => h x (by simp [hx])]

/-- `saveRestaurantToDb` on a fresh external id inserts one row. -/
theorem saveRestaurantToDb_fresh (d : RestaurantData) (db : RestaurantDb)
    (hfresh : ∀ r ∈ db.rows, r.googlePlaceId ≠ d.googlePlaceId) :
    saveRestaurantToDb d db
      = (some ⟨some db.nextId, d.googlePlaceId, d.name, d.address, d.cuisines,
          d.dietaryOptions, d.rating⟩,
        ⟨db.rows ++ [⟨some db.nextId, d.googlePlaceId, d.name, d.address, d.cuisines,
          d.dietaryOptions, d.rating⟩], db.nextId + 1⟩) := by
  have hnone : db.rows.find? (fun r => decide (r.googlePlaceId = d.googlePlaceId)) = none := by
    rw [List.find?_eq_none]
    intro x hx
    simpa using hfresh x hx
  unfold saveRestaurantToDb
  rw [hnone]

/-- `saveRestaurantToDb` on a present external id returns the stored row
unchanged and leaves the store untouched. -/
theorem saveRestaurantToDb_existing (d : RestaurantData) (db : RestaurantDb)
    (r : Restaurant)
    (hfind : db.rows.find? (fun row => decide (row.googlePlaceId = d.googlePlaceId)) = some r) :
    saveRestaurantToDb d db = (some r, db) := by
  unfold saveRestaurantToDb
  rw [hfind]

/-- `saveTvShow` on a fresh tmdb id inserts one row. -/
theorem saveTvShow_fresh (t : TMDBTvShowData) (db : TvShowDb)
    (hfresh : ∀ r ∈ db.rows, r.tmdb_id ≠ t.id) :
    saveTvShow t db
      = (some (tvRowFromData db.nextId t),
        ⟨db.rows ++ [tvRowFromData db.nextId t], db.nextId + 1⟩) := by
  have hnone : db.rows.find? (fun r => decide (r.tmdb_id = t.id)) = none := by
    rw [List.find?_eq_none]
    intro x hx
    simpa using hfresh x hx
  unfold saveTvShow
  rw [hnone]

/-- `saveTvShow` on a present tmdb id refreshes the row in place, keeping
its local id. -/
theorem saveTvShow_existing (t : TMDBTvShowData) (db : TvShowDb) (e : TvShow)
    (hfind : db.rows.find? (fun row => decide (row.tmdb_id = t.id)) = some e) :
    saveTvShow t db
      = (some (tvRowFromData e.id t),
        ⟨db.rows.map fun r => if r.tmdb_id = t.id then tvRowFromData e.id t else r,
          db.nextId⟩) := by
  unfold saveTvShow
  rw [hfind]

/-- C5 counterexample: after inserting `exRestData1` and re-upserting the
same external id with drifted attributes (`exRestData2`), the restaurant
store still holds the ORIGINAL attributes — `saveRestaurantToDb` does not
refresh in place. -/
theorem c5_counterexample :
    (saveRestaurantToDb exRestData2 (saveRestaurantToDb exRestData1 ⟨[], 1⟩).2).2
        = (saveRestaurantToDb exRestData1 ⟨[], 1⟩).2
    ∧ ((saveRestaurantToDb exRestData2 (saveRestaurantToDb exRestData1 ⟨[], 1⟩).2).2.rows.map
        fun r => r.name) = ["N1"]
    ∧ exRestData2.googlePlaceId = exRestData1.googlePlaceId
    ∧ exRestData2.name ≠ "N1" := by
  refine ⟨?_, ?_, rfl, by decide⟩
  · rfl
  · rfl

/-- C5 corrected: both stores are idempotent keyed on the external id —
repeated saves keep exactly one stored record with a stable local id — and
the TV store refreshes the stored attributes in place on re-save; the
restaurant store does NOT refresh: a re-save under a present external id
returns the originally stored row and leaves the store unchanged. -/
theorem c5_amended (d d' : RestaurantData) (t t' : TMDBTvShowData)
    (rdb : RestaurantDb) (tdb : TvShowDb)
    (hdr : d'.googlePlaceId = d.googlePlaceId)
    (hfreshR : ∀ r ∈ rdb.rows, r.googlePlaceId ≠ d.googlePlaceId)
    (htd : t'.id = t.id)
    (hfreshT : ∀ r ∈ tdb.rows, r.tmdb_id ≠ t.id) :
    saveRestaurantToDb d' (saveRestaurantToDb d rdb).2 = saveRestaurantToDb d rdb
    ∧ saveTvShow t' (saveTvShow t tdb).2
        = (some (tvRowFromData tdb.nextId t'),
          ⟨tdb.rows ++ [tvRowFromData tdb.nextId t'], tdb.nextId + 1⟩) := by
  constructor
  · rw [saveRestaurantToDb_fresh d rdb hfreshR]
    apply saveRestaurantToDb_existing
    rw [find?_append_right _ (fun x hx => by simp [hdr, hfreshR x hx]) _]
    simp [hdr]
  · rw [saveTvShow_fresh t tdb hfreshT]
    have hrow : (tvRowFromData tdb.nextId t).tmdb_id = t.id := rfl
    rw [saveTvShow_existing t'
      ⟨tdb.rows ++ [tvRowFromData tdb.nextId t], tdb.nextId + 1⟩
      (tvRowFromData tdb.nextId t)
      (by rw [find?_append_right _ (fun x hx => by simp [htd, hfreshT x hx]) _]
          simp [htd, hrow])]
    have hmap : (tdb.rows ++ [tvRowFromData tdb.nextId t]).map
        (fun r => if r.tmdb_id = t'.id then tvRowFromData tdb.nextId t' else r)
        = tdb.rows ++ [tvRowFromData tdb.nextId t'] := by
      rw [List.map_append,
        map_id_of_untouched _ tdb.rows fun x hx => if_neg (by rw [htd]; exact hfreshT x hx)]
      simp [htd, hrow]
    rw [show (tvRowFromData tdb.nextId t).id = tdb.nextId from rfl]
    dsimp only
    rw [hmap]

/-! ## Claim C8: the spec's concrete restaurant scenario -/

theorem restA_score (rand : ℚ) :
    calculateMatchScore restA exPrefsHard rand = 185 / 2 + rand * 5 := by
  have hcu : cuisineMatchScore restA exPrefsHard = 30 := rfl
  have hdi : dietaryScore exPrefsHard = 50 := rfl
  have hdf : ¬(0 < exPrefsHard.dietaryRestrictions.length
      ∧ meetsAllRestrictions restA exPrefsHard.dietaryRestrictions = false) := by
    rintro ⟨h1, h2⟩
    rw [show meetsAllRestrictions restA exPrefsHard.dietaryRestrictions = true from rfl] at h2
    cases h2
  have hle : exPrefsHard.minRating ≤ restA.rating := by
    norm_num [restA, exPrefsHard]
  simp only [calculateMatchScore]
  rw [if_neg hdf, if_pos hle, hcu, hdi]
  norm_num [restA, exPrefsHard, RATING_BONUS_PER_POINT]

theorem restB_score (rand : ℚ) :
    calculateMatchScore restB exPrefsHard rand = 64 + rand * 5 := by
  have hcu : cuisineMatchScore restB exPrefsHard = 0 := rfl
  have hdi : dietaryScore exPrefsHard = 50 := rfl
  have hdf : ¬(0 < exPrefsHard.dietaryRestrictions.length
      ∧ meetsAllRestrictions restB exPrefsHard.dietaryRestrictions = false) := by
    rintro ⟨h1, h2⟩
    rw [show meetsAllRestrictions restB exPrefsHard.dietaryRestrictions = true from rfl] at h2
    cases h2
  have hle : exPrefsHard.minRating ≤ restB.rating := by
    norm_num [restB, exPrefsHard]
  simp only [calculateMatchScore]
  rw [if_neg hdf, if_pos hle, hcu, hdi]
  norm_num [restB, exPrefsHard, RATING_BONUS_PER_POINT]

theorem restC_score (rand : ℚ) :
    calculateMatchScore restC exPrefsHard rand = 0 := by
  have hdf : 0 < exPrefsHard.dietaryRestrictions.length
      ∧ meetsAllRestrictions restC exPrefsHard.dietaryRestrictions = false := ⟨by decide, rfl⟩
  simp only [calculateMatchScore]
  rw [if_pos hdf]

/-- C8 (confirmed): with `favoriteCuisines = ["Italian"]`,
`dietaryRestrictions = ["vegetarian"]`, `minRating = 4`, C scores exactly
0 and is absent from the result, A and B score positively, and A is
ranked before B — the full result is `[A, B]` — for every possible value
of the per-restaurant jitter draws in `[0, 1)`. -/
theorem c8_concrete_scenario (rand : ℕ → ℚ) (h : ∀ i, 0 ≤ rand i ∧ rand i < 1) :
    calculateMatchScore restC exPrefsHard (rand 2) = 0
    ∧ 0 < calculateMatchScore restA exPrefsHard (rand 0)
    ∧ 0 < calculateMatchScore restB exPrefsHard (rand 1)
    ∧ getRecommendations userC8 [restA, restB, restC] ∅ rand = [restA, restB] := by
  obtain ⟨h00, h01⟩ := h 0
  obtain ⟨h10, h11⟩ := h 1
  have hr0 : 0 ≤ rand 0 * 5 := by positivity
  have hr1 : 0 ≤ rand 1 * 5 := by positivity
  have hr1' : rand 1 * 5 < 5 := by nlinarith
  have hApos : (0:ℚ) < 185 / 2 + rand 0 * 5 := by linarith
  have hBpos : (0:ℚ) < 64 + rand 1 * 5 := by linarith
  have hBA : 64 + rand 1 * 5 ≤ 185 / 2 + rand 0 * 5 := by linarith
  refine ⟨restC_score (rand 2), ?_, ?_, ?_⟩
  · rw [restA_score (rand 0)]
    exact hApos
  · rw [restB_score (rand 1)]
    exact hBpos
  · have hu : userC8.preferences = exPrefsHard := rfl
    simp only [getRecommendations]
    rw [show ([restA, restB, restC].filter fun r =>
        match r.id with
        | none => false
        | some i => decide (i ∉ (∅ : Finset ℕ))) = [restA, restB, restC] from by
      simp [restA, restB, restC]]
    rw [show List.enum [restA, restB, restC] = [(0, restA), (1, restB), (2, restC)] from rfl]
    simp only [List.map_cons, List.map_nil]
    rw [hu, restA_score (rand 0), restB_score (rand 1), restC_score (rand 2)]
    rw [List.filter_cons_of_pos (by simpa using hApos),
      List.filter_cons_of_pos (by simpa using hBpos),
      List.filter_cons_of_neg (by simp), List.filter_nil]
    simp only [sortByScoreDesc, insertDesc]
    rw [if_pos hBA]
    simp

/-- Witness for C8 with all jitter draws 0. -/
theorem c8_witness :
    (∀ i : ℕ, 0 ≤ (0:ℚ) ∧ (0:ℚ) < 1)
    ∧ getRecommendations userC8 [restA, restB, restC] ∅ (fun _ => 0) = [restA, restB] :=
  have hzero : ∀ i : ℕ, 0 ≤ (0:ℚ) ∧ (0:ℚ) < 1 := fun _ => ⟨le_refl 0, by decide⟩
  ⟨hzero, (c8_concrete_scenario (fun _ => 0) hzero).2.2.2⟩

/-! ## Claim C2: bounded output -/

/-- Fully open preferences score every rating-5 restaurant at `55` plus
jitter. -/
theorem exPrefsOpen_score (r : Restaurant) (rand : ℚ) (h5 : r.rating = 5) :
    calculateMatchScore r exPrefsOpen rand = 55 + rand * 5 := by
  have hcond : (exPrefsOpen.favoriteCuisines.contains "Any"
      || exPrefsOpen.favoriteCuisines.isEmpty) = true := rfl
  have hcu : cuisineMatchScore r exPrefsOpen = 15 := by
    simp only [cuisineMatchScore]
    rw [if_pos hcond]
    norm_num [CUISINE_MATCH_SCORE]
  have hdi : dietaryScore exPrefsOpen = 10 := by
    simp only [dietaryScore]
    rw [if_neg (by decide)]
    norm_num [DIETARY_MATCH_SCORE]
  have hdf : ¬(0 < exPrefsOpen.dietaryRestrictions.length
      ∧ meetsAllRestrictions r exPrefsOpen.dietaryRestrictions = false) := by
    rintro ⟨h1, _⟩
    exact absurd h1 (by decide)
  have hle : exPrefsOpen.minRating ≤ r.rating := by
    rw [h5]
    decide
  simp only [calculateMatchScore]
  rw [if_neg hdf, if_pos hle, hcu, hdi, h5]
  norm_num [exPrefsOpen, RATING_BONUS_PER_POINT]

/-- C2 counterexample: the restaurant-domain `getRecommendations` takes no
`count` and is unbounded — with six fully matching unseen restaurants it
returns all six, exceeding the default bound of 5. -/
theorem c2_counterexample :
    (getRecommendations exUserOpen exSixRestaurants ∅ fun _ => 0).length = 6
    ∧ ¬((getRecommendations exUserOpen exSixRestaurants ∅ fun _ => 0).length ≤ 5) := by
  have hscore : ∀ r ∈ exSixRestaurants, calculateMatchScore r exPrefsOpen 0 = 55 := by
    intro r hr
    fin_cases hr <;> rw [exPrefsOpen_score _ 0 rfl] <;> norm_num
  have hlen : (getRecommendations exUserOpen exSixRestaurants ∅ fun _ => 0).length = 6 := by
    simp only [getRecommendations]
    rw [List.length_map, (sortByScoreDesc_perm _).length_eq]
    rw [List.filter_eq_self.2 ?hpos]
    case hpos =>
      intro x hx
      simp only [List.mem_map] at hx
      obtain ⟨p, hp, rfl⟩ := hx
      have hmem : p.2 ∈ exSixRestaurants := by
        have h1 := List.mem_map_of_mem Prod.snd hp
        rw [List.enum_map_snd] at h1
        exact List.mem_of_mem_filter h1
      have h55 := hscore p.2 hmem
      have hu : exUserOpen.preferences = exPrefsOpen := rfl
      simp only [hu, h55]
      decide
    rw [List.length_map, List.enum_length]
    rw [List.filter_eq_self.2 ?helig]
    case helig =>
      intro r hr
      fin_cases hr <;> simp
    rfl
  refine ⟨hlen, ?_⟩
  rw [hlen]
  decide

/-! ## Orchestrator machinery: `pushIfNew` and fold lemmas -/

theorem mem_recIds_iff_any {st : RecState} {m : ℕ} :
    m ∈ recIds st ↔ (st.recommendations.any fun r => decide (r.tmdb_id = m)) = true := by
  simp only [recIds, List.mem_map, List.any_eq_true, decide_eq_true_eq]

theorem recIds_push (l : List TvShow) (e : Finset ℕ) (s : TvShow) :
    recIds ⟨l ++ [s], e⟩ = l.map (fun r => r.tmdb_id) ++ [s.tmdb_id] := by
  simp [recIds]

/-- The three possible outcomes of one append step. -/
theorem pushIfNew_cases (count : ℕ) (st : RecState) (s : TvShow) :
    pushIfNew count st s = st
    ∨ (¬ count ≤ st.recommendations.length
        ∧ s.tmdb_id ∉ recIds st
        ∧ pushIfNew count st s
            = ⟨st.recommendations ++ [s], insert s.tmdb_id st.excl⟩) := by
  by_cases h1 : count ≤ st.recommendations.length
  · left
    unfold pushIfNew
    rw [if_pos h1]
  · by_cases h2 : (st.recommendations.any fun r => decide (r.tmdb_id = s.tmdb_id)) = true
    · left
      unfold pushIfNew
      rw [if_neg h1, if_pos h2]
    · right
      refine ⟨h1, fun hmem => h2 (mem_recIds_iff_any.1 hmem), ?_⟩
      unfold pushIfNew
      rw [if_neg h1, if_neg h2]

theorem recIds_subset_pushIfNew (count : ℕ) (st : RecState) (s : TvShow) :
    recIds st ⊆ recIds (pushIfNew count st s) := by
  rcases pushIfNew_cases count st s with h | ⟨_, _, h⟩
  · rw [h]
    exact fun _ hx => hx
  · rw [h, recIds_push]
    intro x hx
    exact List.mem_append_left _ hx

theorem length_le_pushIfNew (count : ℕ) (st : RecState) (s : TvShow) :
    st.recommendations.length ≤ (pushIfNew count st s).recommendations.length := by
  rcases pushIfNew_cases count st s with h | ⟨_, _, h⟩
  · rw [h]
  · rw [h]
    simp only [List.length_append, List.length_singleton]
    omega

theorem TvInv_pushIfNew {excl0 : Finset ℕ} {count : ℕ} {st : RecState}
    (hInv : TvInv excl0 count st) {s : TvShow} (hs : s.tmdb_id ∉ excl0) :
    TvInv excl0 count (pushIfNew count st s) := by
  rcases pushIfNew_cases count st s with h | ⟨hlen, hdup, h⟩
  · rwa [h]
  · obtain ⟨hI1, hI2, hI3, hI4⟩ := hInv
    rw [h]
    refine ⟨?_, ?_, ?_, ?_⟩
    · intro n
      rw [recIds_push]
      simp only [Finset.mem_insert, List.mem_append, List.mem_singleton]
      rw [hI1 n]
      simp only [recIds]
      tauto
    · rw [recIds_push]
      rw [List.nodup_append]
      refine ⟨hI2, List.nodup_singleton _, ?_⟩
      intro a ha hb
      rw [List.mem_singleton] at hb
      subst hb
      exact hdup ha
    · intro x hx
      rcases List.mem_append.1 hx with hx' | hx'
      · exact hI3 x hx'
      · rw [List.mem_singleton] at hx'
        subst hx'
        exact hs
    · have : st.recommendations.length < count := lt_of_not_le hlen
      simp only [List.length_append, List.length_singleton]
      omega

theorem target_pushIfNew (count : ℕ) (st : RecState) (s : TvShow) :
    s.tmdb_id ∈ recIds (pushIfNew count st s)
    ∨ count ≤ (pushIfNew count st s).recommendations.length := by
  by_cases h1 : count ≤ st.recommendations.length
  · exact Or.inr (le_trans h1 (length_le_pushIfNew count st s))
  · by_cases h2 : (st.recommendations.any fun r => decide (r.tmdb_id = s.tmdb_id)) = true
    · exact Or.inl (recIds_subset_pushIfNew count st s (mem_recIds_iff_any.2 h2))
    · left
      have h : pushIfNew count st s
          = ⟨st.recommendations ++ [s], insert s.tmdb_id st.excl⟩ := by
        unfold pushIfNew
        rw [if_neg h1, if_neg h2]
      rw [h, recIds_push]
      exact List.mem_append_right _ (by simp)

theorem foldl_preserve {β : Type} {P : RecState → Prop} {B : β → Prop}
    {f : RecState → β → RecState}
    (hf : ∀ st x, P st → B x → P (f st x)) :
    ∀ (l : List β) (st : RecState), P st → (∀ x ∈ l, B x) → P (l.foldl f st)
  | [], st, hP, _ => by simpa using hP
  | x :: xs, st, hP, hB => by
      rw [List.foldl_cons]
      exact foldl_preserve hf xs (f st x) (hf st x hP (hB x (by simp)))
        fun y hy => hB y (by simp [hy])

theorem foldl_sub {β : Type} {f : RecState → β → RecState}
    (hf : ∀ st x, recIds st ⊆ recIds (f st x)) :
    ∀ (l : List β) (st : RecState), recIds st ⊆ recIds (l.foldl f st)
  | [], _ => by simp
  | x :: xs, st => by
      rw [List.foldl_cons]
      exact (hf st x).trans (foldl_sub hf xs (f st x))

theorem foldl_len {β : Type} {f : RecState → β → RecState}
    (hf : ∀ st x, st.recommendations.length ≤ (f st x).recommendations.length) :
    ∀ (l : List β) (st : RecState),
      st.recommendations.length ≤ (l.foldl f st).recommendations.length
  | [], _ => by simp
  | x :: xs, st => by
      rw [List.foldl_cons]
      exact (hf st x).trans (foldl_len hf xs (f st x))

/-- Exhaustion: if some processed element could have delivered the id `n`,
then after the fold either `n` was appended (possibly earlier) or the list
is full. -/
theorem foldl_exhaust {β : Type} {B A : β → Prop} {n : ℕ} {excl0 : Finset ℕ}
    {count : ℕ} {f : RecState → β → RecState}
    (hsub : ∀ st x, recIds st ⊆ recIds (f st x))
    (hlen : ∀ st x, st.recommendations.length ≤ (f st x).recommendations.length)
    (hinv : ∀ st x, TvInv excl0 count st → B x → TvInv excl0 count (f st x))
    (hstep : ∀ st x, TvInv excl0 count st → B x → A x →
      n ∈ recIds (f st x) ∨ count ≤ (f st x).recommendations.length) :
    ∀ (l : List β) (st : RecState), TvInv excl0 count st → (∀ x ∈ l, B x) →
      (∃ x ∈ l, A x) →
      n ∈ recIds (l.foldl f st) ∨ count ≤ (l.foldl f st).recommendations.length
  | [], _, _, _, hex => by simp at hex
  | x :: xs, st, hInv, hB, hex => by
      rw [List.foldl_cons]
      rcases hex with ⟨y, hy, hA⟩
      rcases List.mem_cons.1 hy with rfl | hmem
      · rcases hstep st y hInv (hB y (by simp)) hA with h | h
        · exact Or.inl (foldl_sub hsub xs (f st y) h)
        · exact Or.inr (le_trans h (foldl_len hlen xs (f st y)))
      · exact foldl_exhaust hsub hlen hinv hstep xs (f st x)
          (hinv st x hInv (hB x (by simp))) (fun z hz => hB z (by simp [hz]))
          ⟨y, hmem, hA⟩

/-! ## Per-phase step lemmas -/

theorem tvPhase3Lookup_id {env : TvEnv}
    (Hfs : ∀ n s, env.fetchSave n = some s → s.tmdb_id = n)
    (Hdb : ∀ n s, env.dbByTmdb n = some s → s.tmdb_id = n) :
    ∀ n s, tvPhase3Lookup env n = some s → s.tmdb_id = n := by
  intro n s h
  unfold tvPhase3Lookup at h
  cases hdb : env.dbByTmdb n with
  | some e =>
      rw [hdb] at h
      cases h
      exact Hdb n _ hdb
  | none =>
      rw [hdb] at h
      exact Hfs n s h

theorem phase2Step_inv {env : TvEnv} {excl0 : Finset ℕ} {count : ℕ}
    (Hfs : ∀ n s, env.fetchSave n = some s → s.tmdb_id = n)
    (st : RecState) (tmdbId : ℕ) (hInv : TvInv excl0 count st) :
    TvInv excl0 count (phase2Step env count st tmdbId) := by
  unfold phase2Step
  by_cases hcond : count ≤ st.recommendations.length ∨ tmdbId ∈ st.excl
  · rwa [if_pos hcond]
  · rw [if_neg hcond]
    push_neg at hcond
    obtain ⟨hlen, hexcl⟩ := hcond
    cases hfs : env.fetchSave tmdbId with
    | none => exact hInv
    | some s =>
        have hid := Hfs tmdbId s hfs
        have hs : s.tmdb_id ∉ excl0 := by
          rw [hid]
          intro hrn
          exact hexcl ((hInv.1 tmdbId).2 (Or.inl hrn))
        exact TvInv_pushIfNew hInv hs

theorem phase2Step_sub {env : TvEnv} {count : ℕ} (st : RecState) (tmdbId : ℕ) :
    recIds st ⊆ recIds (phase2Step env count st tmdbId) := by
  unfold phase2Step
  by_cases hcond : count ≤ st.recommendations.length ∨ tmdbId ∈ st.excl
  · rw [if_pos hcond]
    exact fun _ hx => hx
  · rw [if_neg hcond]
    cases hfs : env.fetchSave tmdbId with
    | none => exact fun _ hx => hx
    | some s => exact recIds_subset_pushIfNew count st s

theorem phase2Step_len {env : TvEnv} {count : ℕ} (st : RecState) (tmdbId : ℕ) :
    st.recommendations.length ≤ (phase2Step env count st tmdbId).recommendations.length := by
  unfold phase2Step
  by_cases hcond : count ≤ st.recommendations.length ∨ tmdbId ∈ st.excl
  · rw [if_pos hcond]
  · rw [if_neg hcond]
    cases hfs : env.fetchSave tmdbId with
    | none => exact le_refl _
    | some s => exact length_le_pushIfNew count st s

theorem phase2Step_target {env : TvEnv} {excl0 : Finset ℕ} {count : ℕ}
    (Hfs : ∀ n s, env.fetchSave n = some s → s.tmdb_id = n)
    (st : RecState) (tmdbId : ℕ) (n : ℕ) (hInv : TvInv excl0 count st)
    (hA : tmdbId = n ∧ tmdbId ∉ excl0 ∧ (env.fetchSave tmdbId).isSome = true) :
    n ∈ recIds (phase2Step env count st tmdbId)
    ∨ count ≤ (phase2Step env count st tmdbId).recommendations.length := by
  obtain ⟨rfl, hnot0, hsome⟩ := hA
  unfold phase2Step
  by_cases hcond : count ≤ st.recommendations.length ∨ tmdbId ∈ st.excl
  · rw [if_pos hcond]
    rcases hcond with h | h
    · exact Or.inr h
    · left
      rcases (hInv.1 tmdbId).1 h with h0 | h0
      · exact absurd h0 hnot0
      · exact h0
  · rw [if_neg hcond]
    cases hfs : env.fetchSave tmdbId with
    | none =>
        rw [hfs] at hsome
        simp at hsome
    | some s =>
        have hid := Hfs tmdbId s hfs
        rw [← hid]
        exact target_pushIfNew count st s

theorem phase3Step_inv {env : TvEnv} {excl0 : Finset ℕ} {count : ℕ}
    (Hlk : ∀ n s, tvPhase3Lookup env n = some s → s.tmdb_id = n)
    (st : RecState) (tmdbId : ℕ) (hInv : TvInv excl0 count st) :
    TvInv excl0 count (phase3Step env count st tmdbId) := by
  unfold phase3Step
  by_cases hcond : count ≤ st.recommendations.length ∨ tmdbId ∈ st.excl
  · rwa [if_pos hcond]
  · rw [if_neg hcond]
    push_neg at hcond
    obtain ⟨hlen, hexcl⟩ := hcond
    cases hlu : tvPhase3Lookup env tmdbId with
    | none => exact hInv
    | some s =>
        have hid := Hlk tmdbId s hlu
        have hs : s.tmdb_id ∉ excl0 := by
          rw [hid]
          intro hrn
          exact hexcl ((hInv.1 tmdbId).2 (Or.inl hrn))
        exact TvInv_pushIfNew hInv hs

theorem phase3Step_sub {env : TvEnv} {count : ℕ} (st : RecState) (tmdbId : ℕ) :
    recIds st ⊆ recIds (phase3Step env count st tmdbId) := by
  unfold phase3Step
  by_cases hcond : count ≤ st.recommendations.length ∨ tmdbId ∈ st.excl
  · rw [if_pos hcond]
    exact fun _ hx => hx
  · rw [if_neg hcond]
    cases hlu : tvPhase3Lookup env tmdbId with
    | none => exact fun _ hx => hx
    | some s => exact recIds_subset_pushIfNew count st s

theorem phase3Step_len {env : TvEnv} {count : ℕ} (st : RecState) (tmdbId : ℕ) :
    st.recommendations.length ≤ (phase3Step env count st tmdbId).recommendations.length := by
  unfold phase3Step
  by_cases hcond : count ≤ st.recommendations.length ∨ tmdbId ∈ st.excl
  · rw [if_pos hcond]
  · rw [if_neg hcond]
    cases hlu : tvPhase3Lookup env tmdbId with
    | none => exact le_refl _
    | some s => exact length_le_pushIfNew count st s

theorem phase3Step_target {env : TvEnv} {excl0 : Finset ℕ} {count : ℕ}
    (Hlk : ∀ n s, tvPhase3Lookup env n = some s → s.tmdb_id = n)
    (st : RecState) (tmdbId : ℕ) (n : ℕ) (hInv : TvInv excl0 count st)
    (hA : tmdbId = n ∧ tmdbId ∉ excl0 ∧ (tvPhase3Lookup env tmdbId).isSome = true) :
    n ∈ recIds (phase3Step env count st tmdbId)
    ∨ count ≤ (phase3Step env count st tmdbId).recommendations.length := by
  obtain ⟨rfl, hnot0, hsome⟩ := hA
  unfold phase3Step
  by_cases hcond : count ≤ st.recommendations.length ∨ tmdbId ∈ st.excl
  · rw [if_pos hcond]
    rcases hcond with h | h
    · exact Or.inr h
    · left
      rcases (hInv.1 tmdbId).1 h with h0 | h0
      · exact absurd h0 hnot0
      · exact h0
  · rw [if_neg hcond]
    cases hlu : tvPhase3Lookup env tmdbId with
    | none =>
        rw [hlu] at hsome
        simp at hsome
    | some s =>
        have hid := Hlk tmdbId s hlu
        rw [← hid]
        exact target_pushIfNew count st s

theorem phase2Rated_inv {env : TvEnv} {excl0 : Finset ℕ} {count : ℕ}
    (Hfs : ∀ n s, env.fetchSave n = some s → s.tmdb_id = n)
    (st : RecState) (rated : TvRating) (hInv : TvInv excl0 count st) :
    TvInv excl0 count (phase2Rated env count st rated) := by
  unfold phase2Rated
  by_cases hlen : count ≤ st.recommendations.length
  · rwa [if_pos hlen]
  · rw [if_neg hlen]
    cases hc : env.collab rated.tv_show_tmdb_id with
    | none => exact hInv
    | some stubs =>
        exact foldl_preserve (B := fun _ => True)
          (fun st x hP _ => phase2Step_inv Hfs st x hP) stubs st hInv fun _ _ => trivial

theorem phase2Rated_sub {env : TvEnv} {count : ℕ} (st : RecState) (rated : TvRating) :
    recIds st ⊆ recIds (phase2Rated env count st rated) := by
  unfold phase2Rated
  by_cases hlen : count ≤ st.recommendations.length
  · rw [if_pos hlen]
    exact fun _ hx => hx
  · rw [if_neg hlen]
    cases hc : env.collab rated.tv_show_tmdb_id with
    | none => exact fun _ hx => hx
    | some stubs => exact foldl_sub (fun st x => phase2Step_sub st x) stubs st

theorem phase2Rated_len {env : TvEnv} {count : ℕ} (st : RecState) (rated : TvRating) :
    st.recommendations.length ≤ (phase2Rated env count st rated).recommendations.length := by
  unfold phase2Rated
  by_cases hlen : count ≤ st.recommendations.length
  · rw [if_pos hlen]
  · rw [if_neg hlen]
    cases hc : env.collab rated.tv_show_tmdb_id with
    | none => exact le_refl _
    | some stubs => exact foldl_len (fun st x => phase2Step_len st x) stubs st

theorem phase2Rated_target {env : TvEnv} {excl0 : Finset ℕ} {count : ℕ}
    (Hfs : ∀ n s, env.fetchSave n = some s → s.tmdb_id = n)
    (st : RecState) (rated : TvRating) (n : ℕ) (hInv : TvInv excl0 count st)
    (hA : n ∈ (match env.collab rated.tv_show_tmdb_id with
      | none => ([] : List ℕ)
      | some stubs => stubs.filter fun tmdbId =>
          decide (tmdbId ∉ excl0) && (env.fetchSave tmdbId).isSome)) :
    n ∈ recIds (phase2Rated env count st rated)
    ∨ count ≤ (phase2Rated env count st rated).recommendations.length := by
  unfold phase2Rated
  by_cases hlen : count ≤ st.recommendations.length
  · rw [if_pos hlen]
    exact Or.inr hlen
  · rw [if_neg hlen]
    cases hc : env.collab rated.tv_show_tmdb_id with
    | none =>
        rw [hc] at hA
        simp at hA
    | some stubs =>
        rw [hc] at hA
        rcases List.mem_filter.1 hA with ⟨hmem, hp⟩
        rw [Bool.and_eq_true] at hp
        refine foldl_exhaust (B := fun _ => True)
          (A := fun x => x = n ∧ x ∉ excl0 ∧ (env.fetchSave x).isSome = true)
          (fun st x => phase2Step_sub st x) (fun st x => phase2Step_len st x)
          (fun st x hI _ => phase2Step_inv Hfs st x hI)
          (fun st x hI _ hAx => phase2Step_target Hfs st x n hI hAx)
          stubs st hInv (fun _ _ => trivial) ?_
        exact ⟨n, hmem, rfl, by simpa using hp.1, hp.2⟩

/-! ## Membership lemmas for candidates and availability -/

theorem mem_tvCandidates {env : TvEnv} {excl0 : Finset ℕ} {s : TvShow}
    (Hfs : ∀ n s, env.fetchSave n = some s → s.tmdb_id = n)
    (h : s ∈ tvCandidates env excl0) : s.tmdb_id ∉ excl0 := by
  unfold tvCandidates at h
  cases hp : env.popular with
  | none =>
      rw [hp] at h
      simp at h
  | some results =>
      rw [hp] at h
      rcases List.mem_filterMap.1 h with ⟨tmdbId, hmem, hf⟩
      by_cases he : tmdbId ∈ excl0
      · rw [if_pos he] at hf
        cases hf
      · rw [if_neg he] at hf
        rw [Hfs tmdbId s hf]
        exact he

theorem mem_contentRecs {p : UserTvShowPreferences} {cands : List TvShow}
    {c : ℕ} {s : TvShow}
    (h : s ∈ getContentBasedTvShowRecommendations p cands c) : s ∈ cands := by
  unfold getContentBasedTvShowRecommendations at h
  rcases List.mem_map.1 h with ⟨pair, hpair, rfl⟩
  have h1 := List.mem_of_mem_take hpair
  have h2 := mem_sortByScoreDesc h1
  have h3 := List.mem_of_mem_filter h2
  obtain ⟨sh, hsh, rfl⟩ := List.mem_map.1 h3
  exact hsh

theorem mem_foldl_append {α β : Type} (g : β → List α) :
    ∀ (l : List β) (acc : List α) (x : α),
      (x ∈ l.foldl (fun a r => a ++ g r) acc ↔ x ∈ acc ∨ ∃ r ∈ l, x ∈ g r)
  | [], acc, x => by simp
  | b :: bs, acc, x => by
      rw [List.foldl_cons, mem_foldl_append g bs (acc ++ g b) x, List.mem_append]
      constructor
      · rintro ((h | h) | ⟨r, hr, h⟩)
        · exact Or.inl h
        · exact Or.inr ⟨b, by simp, h⟩
        · exact Or.inr ⟨r, by simp [hr], h⟩
      · rintro (h | ⟨r, hr, h⟩)
        · exact Or.inl (Or.inl h)
        · rcases List.mem_cons.1 hr with rfl | hr'
          · exact Or.inl (Or.inr h)
          · exact Or.inr ⟨r, hr', h⟩

/-! ## Stage theorems -/

theorem TvInv_stage0 (excl0 : Finset ℕ) (count : ℕ) :
    TvInv excl0 count (⟨[], excl0⟩ : RecState) := by
  refine ⟨fun n => ?_, ?_, ?_, ?_⟩ <;> simp [recIds]

theorem TvInv_stage1 {env : TvEnv} {excl0 : Finset ℕ} {count : ℕ}
    (user : UserTvShowPreferences)
    (Hfs : ∀ n s, env.fetchSave n = some s → s.tmdb_id = n) :
    TvInv excl0 count (tvStage1 env user excl0 count) := by
  simp only [tvStage1]
  by_cases hc : 0 < (tvCandidates env excl0).length
  · rw [if_pos hc]
    exact foldl_preserve (P := TvInv excl0 count) (B := fun s => s.tmdb_id ∉ excl0)
      (fun st x hP hB => TvInv_pushIfNew hP hB)
      (getContentBasedTvShowRecommendations user (tvCandidates env excl0) count)
      ⟨[], excl0⟩ (TvInv_stage0 excl0 count)
      fun s hs => mem_tvCandidates Hfs (mem_contentRecs hs)
  · rw [if_neg hc]
    exact TvInv_stage0 excl0 count

theorem stage1_exhaust {env : TvEnv} {excl0 : Finset ℕ} {count : ℕ}
    {userPrefs : UserTvShowPreferences}
    (Hfs : ∀ n s, env.fetchSave n = some s → s.tmdb_id = n) (n : ℕ)
    (hn : n ∈ tvPhase1Avail env userPrefs excl0 count) :
    n ∈ recIds (tvStage1 env userPrefs excl0 count)
    ∨ count ≤ (tvStage1 env userPrefs excl0 count).recommendations.length := by
  unfold tvPhase1Avail at hn
  rcases List.mem_map.1 hn with ⟨s, hs, rfl⟩
  have hclen : 0 < (tvCandidates env excl0).length :=
    List.length_pos.2 (List.ne_nil_of_mem (mem_contentRecs hs))
  simp only [tvStage1]
  rw [if_pos hclen]
  exact foldl_exhaust (B := fun x => x.tmdb_id ∉ excl0) (A := fun x => x.tmdb_id = s.tmdb_id)
    (fun st x => recIds_subset_pushIfNew count st x)
    (fun st x => length_le_pushIfNew count st x)
    (fun st x hI hB => TvInv_pushIfNew hI hB)
    (fun st x hI hB hAx => by
      rw [← hAx]
      exact target_pushIfNew count st x)
    _ _ (TvInv_stage0 excl0 count)
    (fun x hx => mem_tvCandidates Hfs (mem_contentRecs hx))
    ⟨s, hs, rfl⟩

theorem TvInv_stage2 {env : TvEnv} {excl0 : Finset ℕ} {count : ℕ}
    (user : User) (userPrefs : UserTvShowPreferences)
    (Hfs : ∀ n s, env.fetchSave n = some s → s.tmdb_id = n) :
    TvInv excl0 count (tvStage2 env user userPrefs excl0 count) := by
  simp only [tvStage2]
  by_cases hc : (tvStage1 env userPrefs excl0 count).recommendations.length < count
      ∧ MIN_RATINGS_FOR_COLLABORATIVE_TV ≤ (env.ratingsOf user.id).length
  · rw [if_pos hc]
    exact foldl_preserve (B := fun _ => True)
      (fun st x hP _ => phase2Rated_inv Hfs st x hP) _ _
      (TvInv_stage1 userPrefs Hfs) fun _ _ => trivial
  · rw [if_neg hc]
    exact TvInv_stage1 userPrefs Hfs

theorem stage2_sub {env : TvEnv} {excl0 : Finset ℕ} {count : ℕ}
    (user : User) (userPrefs : UserTvShowPreferences) :
    recIds (tvStage1 env userPrefs excl0 count)
      ⊆ recIds (tvStage2 env user userPrefs excl0 count) := by
  simp only [tvStage2]
  by_cases hc : (tvStage1 env userPrefs excl0 count).recommendations.length < count
      ∧ MIN_RATINGS_FOR_COLLABORATIVE_TV ≤ (env.ratingsOf user.id).length
  · rw [if_pos hc]
    exact foldl_sub (fun st x => phase2Rated_sub st x) _ _
  · rw [if_neg hc]
    exact fun _ hx => hx

theorem stage2_len {env : TvEnv} {excl0 : Finset ℕ} {count : ℕ}
    (user : User) (userPrefs : UserTvShowPreferences) :
    (tvStage1 env userPrefs excl0 count).recommendations.length
      ≤ (tvStage2 env user userPrefs excl0 count).recommendations.length := by
  simp only [tvStage2]
  by_cases hc : (tvStage1 env userPrefs excl0 count).recommendations.length < count
      ∧ MIN_RATINGS_FOR_COLLABORATIVE_TV ≤ (env.ratingsOf user.id).length
  · rw [if_pos hc]
    exact foldl_len (fun st x => phase2Rated_len st x) _ _
  · rw [if_neg hc]

theorem stage2_exhaust {env : TvEnv} {excl0 : Finset ℕ} {count : ℕ}
    {user : User} {userPrefs : UserTvShowPreferences}
    (Hfs : ∀ n s, env.fetchSave n = some s → s.tmdb_id = n) (n : ℕ)
    (hn : n ∈ tvPhase2Avail env user excl0) :
    n ∈ recIds (tvStage2 env user userPrefs excl0 count)
    ∨ count ≤ (tvStage2 env user userPrefs excl0 count).recommendations.length := by
  unfold tvPhase2Avail at hn
  by_cases hr : MIN_RATINGS_FOR_COLLABORATIVE_TV ≤ (env.ratingsOf user.id).length
  · rw [if_pos hr] at hn
    rw [mem_foldl_append] at hn
    rcases hn with h | ⟨rated, hrated, hmem⟩
    · simp at h
    · simp only [tvStage2]
      by_cases hc : (tvStage1 env userPrefs excl0 count).recommendations.length < count
          ∧ MIN_RATINGS_FOR_COLLABORATIVE_TV ≤ (env.ratingsOf user.id).length
      · rw [if_pos hc]
        exact foldl_exhaust (B := fun _ => True)
          (A := fun rt => n ∈ (match env.collab rt.tv_show_tmdb_id with
            | none => ([] : List ℕ)
            | some stubs => stubs.filter fun tmdbId =>
                decide (tmdbId ∉ excl0) && (env.fetchSave tmdbId).isSome))
          (fun st x => phase2Rated_sub st x) (fun st x => phase2Rated_len st x)
          (fun st x hI _ => phase2Rated_inv Hfs st x hI)
          (fun st x hI _ hAx => phase2Rated_target Hfs st x n hI hAx)
          _ _ (TvInv_stage1 userPrefs Hfs) (fun _ _ => trivial)
          ⟨rated, hrated, hmem⟩
      · rw [if_neg hc]
        right
        rcases not_and_or.1 hc with h | h
        · exact not_lt.1 h
        · exact absurd hr h
  · rw [if_neg hr] at hn
    simp at hn

theorem TvInv_stage3 {env : TvEnv} {excl0 : Finset ℕ} {count : ℕ}
    (user : User) (userPrefs : UserTvShowPreferences)
    (Hfs : ∀ n s, env.fetchSave n = some s → s.tmdb_id = n)
    (Hdb : ∀ n s, env.dbByTmdb n = some s → s.tmdb_id = n) :
    TvInv excl0 count (tvStage3 env user userPrefs excl0 count) := by
  cases hp : env.popular with
  | none =>
      simp only [tvStage3, hp]
      exact TvInv_stage2 user userPrefs Hfs
  | some results =>
      simp only [tvStage3, hp]
      by_cases hc : (tvStage2 env user userPrefs excl0 count).recommendations.length < count
      · rw [if_pos hc]
        exact foldl_preserve (P := TvInv excl0 count) (B := fun _ => True)
          (fun st x hP _ => phase3Step_inv (tvPhase3Lookup_id Hfs Hdb) st x hP)
          results (tvStage2 env user userPrefs excl0 count)
          (TvInv_stage2 user userPrefs Hfs) fun _ _ => trivial
      · rw [if_neg hc]
        exact TvInv_stage2 user userPrefs Hfs

theorem stage3_sub {env : TvEnv} {excl0 : Finset ℕ} {count : ℕ}
    (user : User) (userPrefs : UserTvShowPreferences) :
    recIds (tvStage2 env user userPrefs excl0 count)
      ⊆ recIds (tvStage3 env user userPrefs excl0 count) := by
  cases hp : env.popular with
  | none =>
      simp only [tvStage3, hp]
      exact fun _ hx => hx
  | some results =>
      simp only [tvStage3, hp]
      by_cases hc : (tvStage2 env user userPrefs excl0 count).recommendations.length < count
      · rw [if_pos hc]
        exact foldl_sub (fun st x => phase3Step_sub st x) _ _
      · rw [if_neg hc]
        exact fun _ hx => hx

theorem stage3_len {env : TvEnv} {excl0 : Finset ℕ} {count : ℕ}
    (user : User) (userPrefs : UserTvShowPreferences) :
    (tvStage2 env user userPrefs excl0 count).recommendations.length
      ≤ (tvStage3 env user userPrefs excl0 count).recommendations.length := by
  cases hp : env.popular with
  | none =>
      simp only [tvStage3, hp]
      exact le_refl _
  | some results =>
      simp only [tvStage3, hp]
      by_cases hc : (tvStage2 env user userPrefs excl0 count).recommendations.length < count
      · rw [if_pos hc]
        exact foldl_len (fun st x => phase3Step_len st x) _ _
      · rw [if_neg hc]

theorem stage3_exhaust {env : TvEnv} {excl0 : Finset ℕ} {count : ℕ}
    {user : User} {userPrefs : UserTvShowPreferences}
    (Hfs : ∀ n s, env.fetchSave n = some s → s.tmdb_id = n)
    (Hdb : ∀ n s, env.dbByTmdb n = some s → s.tmdb_id = n) (n : ℕ)
    (hn : n ∈ tvPhase3Avail env excl0) :
    n ∈ recIds (tvStage3 env user userPrefs excl0 count)
    ∨ count ≤ (tvStage3 env user userPrefs excl0 count).recommendations.length := by
  unfold tvPhase3Avail at hn
  cases hp : env.popular with
  | none =>
      rw [hp] at hn
      simp at hn
  | some results =>
      simp only [hp] at hn
      simp only [tvStage3, hp]
      rcases List.mem_filter.1 hn with ⟨hmem, hcond⟩
      rw [Bool.and_eq_true] at hcond
      by_cases hc : (tvStage2 env user userPrefs excl0 count).recommendations.length < count
      · rw [if_pos hc]
        exact foldl_exhaust (B := fun _ => True)
          (A := fun x => x = n ∧ x ∉ excl0 ∧ (tvPhase3Lookup env x).isSome = true)
          (fun st x => phase3Step_sub st x) (fun st x => phase3Step_len st x)
          (fun st x hI _ => phase3Step_inv (tvPhase3Lookup_id Hfs Hdb) st x hI)
          (fun st x hI _ hAx => phase3Step_target (tvPhase3Lookup_id Hfs Hdb) st x n hI hAx)
          _ _ (TvInv_stage2 user userPrefs Hfs) (fun _ _ => trivial)
          ⟨n, hmem, rfl, by simpa using hcond.1, hcond.2⟩
      · rw [if_neg hc]
        exact Or.inr (not_lt.1 hc)

/-! ## Claim C2 (amended) -/

/-- C2 corrected: the TV orchestrator's result has length at most `count`
always, and exactly `count` whenever the three phases together supply at
least `count` distinct unseen candidates (assuming detail fetches and
catalog lookups return the show that was asked for). The restaurant
`getRecommendations` takes no `count` parameter and returns every
positively scored unseen restaurant, so the bound does not hold there. -/
theorem c2_amended :
    (∀ (env : TvEnv) (user : User) (userPrefs : UserTvShowPreferences)
        (excl0 : Finset ℕ) (count : ℕ),
      (getTvShowRecommendationsForUser env user userPrefs excl0 count).1.length ≤ count)
    ∧ (∀ (env : TvEnv) (user : User) (userPrefs : UserTvShowPreferences)
        (excl0 : Finset ℕ) (count : ℕ),
      (∀ n s, env.fetchSave n = some s → s.tmdb_id = n) →
      (∀ n s, env.dbByTmdb n = some s → s.tmdb_id = n) →
      count ≤ (tvSupply env user userPrefs excl0 count).card →
      (getTvShowRecommendationsForUser env user userPrefs excl0 count).1.length = count) := by
  constructor
  · intro env user userPrefs excl0 count
    simp only [getTvShowRecommendationsForUser]
    rw [List.length_take]
    exact min_le_left _ _
  · intro env user userPrefs excl0 count Hfs Hdb hsupply
    have hInv := @TvInv_stage3 env excl0 count
      user userPrefs Hfs Hdb
    have hle : (tvStage3 env user userPrefs excl0 count).recommendations.length ≤ count :=
      hInv.2.2.2
    have hres : (getTvShowRecommendationsForUser env user userPrefs excl0 count).1.length
        = (tvStage3 env user userPrefs excl0 count).recommendations.length := by
      simp only [getTvShowRecommendationsForUser]
      rw [List.length_take]
      exact min_eq_right hle
    rw [hres]
    by_contra hne
    have hlt : (tvStage3 env user userPrefs excl0 count).recommendations.length < count :=
      lt_of_le_of_ne hle hne
    have hsub : ∀ n ∈ tvSupply env user userPrefs excl0 count,
        n ∈ recIds (tvStage3 env user userPrefs excl0 count) := by
      intro n hn
      unfold tvSupply at hn
      rw [List.mem_toFinset] at hn
      rcases List.mem_append.1 hn with hn' | hn'
      · rcases List.mem_append.1 hn' with h1 | h2
        · rcases stage1_exhaust Hfs n h1 with h | h
          · exact stage3_sub user userPrefs (stage2_sub user userPrefs h)
          · exact absurd (le_trans (le_trans h (stage2_len user userPrefs))
              (stage3_len user userPrefs)) (not_le.2 hlt)
        · rcases stage2_exhaust Hfs n h2 with h | h
          · exact stage3_sub user userPrefs h
          · exact absurd (le_trans h (stage3_len user userPrefs)) (not_le.2 hlt)
      · rcases stage3_exhaust Hfs Hdb n hn' with h | h
        · exact h
        · exact absurd h (not_le.2 hlt)
    have hcard : (tvSupply env user userPrefs excl0 count).card
        ≤ (tvStage3 env user userPrefs excl0 count).recommendations.length := by
      have h1 : tvSupply env user userPrefs excl0 count
          ⊆ (recIds (tvStage3 env user userPrefs excl0 count)).toFinset :=
        fun n hn => List.mem_toFinset.2 (hsub n hn)
      have h2 := Finset.card_le_card h1
      rw [List.toFinset_card_of_nodup hInv.2.1] at h2
      simpa [recIds] using h2
    omega

/-- Witness for the amended C2 at a one-show environment with `count = 1`. -/
theorem c2_amended_witness :
    (∀ n s, exTvEnv.fetchSave n = some s → s.tmdb_id = n)
    ∧ (∀ n s, exTvEnv.dbByTmdb n = some s → s.tmdb_id = n)
    ∧ 1 ≤ (tvSupply exTvEnv exTvUser exTvPrefsNoGenre ∅ 1).card
    ∧ (getTvShowRecommendationsForUser exTvEnv exTvUser exTvPrefsNoGenre ∅ 1).1.length = 1 := by
  have hfs : ∀ n s, exTvEnv.fetchSave n = some s → s.tmdb_id = n := by
    intro n s h
    injection h with h'
    rw [← h']
    rfl
  have hdb : ∀ n s, exTvEnv.dbByTmdb n = some s → s.tmdb_id = n := by
    intro n s h
    exact Option.noConfusion h
  have hsup : 1 ≤ (tvSupply exTvEnv exTvUser exTvPrefsNoGenre ∅ 1).card := by
    have h7 : 7 ∈ tvSupply exTvEnv exTvUser exTvPrefsNoGenre ∅ 1 := by
      simp [tvSupply, tvPhase3Avail, tvPhase3Lookup, exTvEnv]
    exact Finset.one_le_card.2 ⟨7, h7⟩
  exact ⟨hfs, hdb, hsup,
    c2_amended.2 exTvEnv exTvUser exTvPrefsNoGenre ∅ 1 hfs hdb hsup⟩

/-! ## Claim C7 (amended) -/

/-- The external-id projection of the restaurant recommendation pipeline
has no duplicates whenever the catalog list itself has none. -/
theorem nodup_map_fst_pipeline {α : Type} (g : Restaurant → α)
    (all : List Restaurant) (q : Restaurant → Bool) (sc : ℕ × Restaurant → ℚ)
    (pos : Restaurant × ℚ → Bool)
    (hN : (all.map g).Nodup) :
    (((sortByScoreDesc (((all.filter q).enum.map fun p => (p.2, sc p)).filter pos)).map
      fun item => item.1).map g).Nodup := by
  have h1 : ((all.filter q).map g).Nodup :=
    hN.sublist ((List.filter_sublist all).map g)
  have h2 : (((all.filter q).enum.map fun p => (p.2, sc p)).map fun item => item.1)
      = all.filter q := by
    rw [List.map_map]
    rw [show ((fun item : Restaurant × ℚ => item.1)
      ∘ fun p : ℕ × Restaurant => (p.2, sc p)) = Prod.snd from rfl]
    exact List.enum_map_snd _
  have h3 : ((((all.filter q).enum.map fun p => (p.2, sc p)).map
      fun item => item.1).map g).Nodup := by
    rw [h2]
    exact h1
  have h4 : List.Sublist
      (((((all.filter q).enum.map fun p => (p.2, sc p)).filter pos).map
        fun item => item.1).map g)
      ((((all.filter q).enum.map fun p => (p.2, sc p)).map fun item => item.1).map g) :=
    ((List.filter_sublist _).map _).map _
  have h5 := h3.sublist h4
  have h6 : ((((sortByScoreDesc (((all.filter q).enum.map fun p => (p.2, sc p)).filter pos)).map
        fun item => item.1).map g)).Perm
      ((((((all.filter q).enum.map fun p => (p.2, sc p)).filter pos)).map
        fun item => item.1).map g) :=
    ((sortByScoreDesc_perm _).map _).map _
  exact h6.nodup_iff.2 h5

/-- C7 corrected: the TV orchestrator never returns an entity whose tmdb
id was excluded at call time, never returns two entities with the same
tmdb id, and leaves the exclusion set equal to the initial set plus
exactly the returned ids (each added at append time, so phases 2 and 3
respect earlier picks). The restaurant recommender respects the exclusion
set (keyed by LOCAL id) and never duplicates an external id when the
catalog has none, but does NOT mutate the exclusion set — the CLI caller
advances it. -/
theorem c7_amended :
    (∀ (env : TvEnv) (user : User) (userPrefs : UserTvShowPreferences)
        (excl0 : Finset ℕ) (count : ℕ),
      (∀ n s, env.fetchSave n = some s → s.tmdb_id = n) →
      (∀ n s, env.dbByTmdb n = some s → s.tmdb_id = n) →
      (∀ s ∈ (getTvShowRecommendationsForUser env user userPrefs excl0 count).1,
          s.tmdb_id ∉ excl0)
      ∧ ((getTvShowRecommendationsForUser env user userPrefs excl0 count).1.map
          fun s => s.tmdb_id).Nodup
      ∧ (∀ n, n ∈ (getTvShowRecommendationsForUser env user userPrefs excl0 count).2
          ↔ (n ∈ excl0
            ∨ n ∈ (getTvShowRecommendationsForUser env user userPrefs excl0 count).1.map
                fun s => s.tmdb_id)))
    ∧ (∀ (user : RestUser) (allRestaurants : List Restaurant) (excludeIds : Finset ℕ)
        (rand : ℕ → ℚ),
      (∀ r ∈ (getRecommendationsWithExcl user allRestaurants excludeIds rand).1,
          ∃ i, r.id = some i ∧ i ∉ excludeIds)
      ∧ (getRecommendationsWithExcl user allRestaurants excludeIds rand).2 = excludeIds
      ∧ ((allRestaurants.map fun r => r.googlePlaceId).Nodup →
          ((getRecommendationsWithExcl user allRestaurants excludeIds rand).1.map
            fun r => r.googlePlaceId).Nodup)) := by
  constructor
  · intro env user userPrefs excl0 count Hfs Hdb
    have hInv := @TvInv_stage3 env excl0 count
      user userPrefs Hfs Hdb
    have htake : (getTvShowRecommendationsForUser env user userPrefs excl0 count).1
        = (tvStage3 env user userPrefs excl0 count).recommendations := by
      simp only [getTvShowRecommendationsForUser]
      exact List.take_of_length_le hInv.2.2.2
    have hexcl : (getTvShowRecommendationsForUser env user userPrefs excl0 count).2
        = (tvStage3 env user userPrefs excl0 count).excl := rfl
    refine ⟨?_, ?_, ?_⟩
    · intro s hs
      rw [htake] at hs
      exact hInv.2.2.1 s hs
    · rw [htake]
      exact hInv.2.1
    · intro n
      rw [htake, hexcl]
      exact hInv.1 n
  · intro user allRestaurants excludeIds rand
    refine ⟨?_, rfl, ?_⟩
    · intro r hr
      simp only [getRecommendationsWithExcl, getRecommendations] at hr
      rcases List.mem_map.1 hr with ⟨pair, hpair, rfl⟩
      have h1 := mem_sortByScoreDesc hpair
      have h2 := List.mem_of_mem_filter h1
      rcases List.mem_map.1 h2 with ⟨p, hp, rfl⟩
      have hmem : p.2 ∈ allRestaurants.filter fun r =>
          match r.id with
          | none => false
          | some i => decide (i ∉ excludeIds) := by
        have h3 := List.mem_map_of_mem Prod.snd hp
        rwa [List.enum_map_snd] at h3
      have hpred := (List.mem_filter.1 hmem).2
      cases hid : (p.2).id with
      | none =>
          rw [hid] at hpred
          simp at hpred
      | some i =>
          rw [hid] at hpred
          exact ⟨i, rfl, of_decide_eq_true hpred⟩
    · intro hN
      simp only [getRecommendationsWithExcl, getRecommendations]
      exact nodup_map_fst_pipeline (fun r => r.googlePlaceId) allRestaurants _
        (fun p => calculateMatchScore p.2 user.preferences (rand p.1)) _ hN

/-- Witness for the amended C7 at the one-show environment and a concrete
restaurant call. -/
theorem c7_amended_witness :
    (∀ n s, exTvEnv.fetchSave n = some s → s.tmdb_id = n)
    ∧ (∀ n s, exTvEnv.dbByTmdb n = some s → s.tmdb_id = n)
    ∧ (∀ s ∈ (getTvShowRecommendationsForUser exTvEnv exTvUser exTvPrefsNoGenre ∅ 1).1,
        s.tmdb_id ∉ (∅ : Finset ℕ))
    ∧ ((getRecommendationsWithExcl userC8 [restA] ∅ fun _ => 0).2 = (∅ : Finset ℕ)) := by
  have hfs : ∀ n s, exTvEnv.fetchSave n = some s → s.tmdb_id = n := by
    intro n s h
    injection h with h'
    rw [← h']
    rfl
  have hdb : ∀ n s, exTvEnv.dbByTmdb n = some s → s.tmdb_id = n := by
    intro n s h
    exact Option.noConfusion h
  exact ⟨hfs, hdb,
    (c7_amended.1 exTvEnv exTvUser exTvPrefsNoGenre ∅ 1 hfs hdb).1,
    (c7_amended.2 userC8 [restA] ∅ fun _ => 0).2.1⟩

/-- Witness for the amended C5 on empty stores. -/
theorem c5_amended_witness :
    exRestData2.googlePlaceId = exRestData1.googlePlaceId
    ∧ exTvData2.id = exTvData1.id
    ∧ saveRestaurantToDb exRestData2 (saveRestaurantToDb exRestData1 ⟨[], 1⟩).2
        = saveRestaurantToDb exRestData1 ⟨[], 1⟩
    ∧ saveTvShow exTvData2 (saveTvShow exTvData1 ⟨[], 1⟩).2
        = (some (tvRowFromData (⟨[], 1⟩ : TvShowDb).nextId exTvData2),
          ⟨(⟨[], 1⟩ : TvShowDb).rows ++ [tvRowFromData (⟨[], 1⟩ : TvShowDb).nextId exTvData2],
            (⟨[], 1⟩ : TvShowDb).nextId + 1⟩) := by
  have h := c5_amended exRestData1 exRestData2 exTvData1 exTvData2 ⟨[], 1⟩ ⟨[], 1⟩
    rfl (by simp) rfl (by simp)
  exact ⟨rfl, rfl, h.1, h.2⟩

/-- C7 counterexample: a restaurant recommendation call returns an entity
but adds nothing to the exclusion set — the restaurant recommender never
mutates it (the CLI caller advances it after display). -/
theorem c7_counterexample :
    (getRecommendationsWithExcl userC8 [restA] ∅ fun _ => 0).1 = [restA]
    ∧ (getRecommendationsWithExcl userC8 [restA] ∅ fun _ => 0).2 = ∅
    ∧ restA.id = some 1
    ∧ (1 : ℕ) ∉ (getRecommendationsWithExcl userC8 [restA] ∅ fun _ => 0).2 := by
  refine ⟨?_, rfl, rfl, by simp [getRecommendationsWithExcl]⟩
  show getRecommendations userC8 [restA] ∅ (fun _ => 0) = [restA]
  have hu : userC8.preferences = exPrefsHard := rfl
  simp only [getRecommendations]
  rw [show ([restA].filter fun r =>
      match r.id with
      | none => false
      | some i => decide (i ∉ (∅ : Finset ℕ))) = [restA] from by simp [restA]]
  rw [show List.enum [restA] = [(0, restA)] from rfl]
  simp only [List.map_cons, List.map_nil]
  rw [hu, restA_score 0]
  have hpos : (0:ℚ) < 185 / 2 + 0 * 5 := by norm_num
  rw [List.filter_cons_of_pos (by simpa using hpos), List.filter_nil]
  simp [sortByScoreDesc, insertDesc]
